import Mathlib

/-!
Formal model of the remote-video acquisition pipeline of
`app/controller/main_controller.py` (functions `download_video_from_url` and
`_is_valid_video_file`).

Modelling conventions:
* byte strings are `List Nat` (each element a byte value);
* the network is an oracle `Env.net : String → UrlBehavior` giving, per URL,
  the outcome of the HEAD probe and of the streamed GET;
* the regex scraping of a Google-Drive confirmation page (lines 388-514 of the
  source) is represented by its extracted result, a `PageAnalysis` value carried
  with the HTML response; the control flow that consumes those extracted values
  (lines 516-613) is modelled exactly;
* the filesystem is an association list `path ↦ contents`; `open(..., "wb")`
  followed by chunk writes and a final `os.remove` nets to a removal;
* the external `ffprobe` invocation is an oracle `Env.ffprobe` on the file
  contents; a `false` result stands for `CalledProcessError`, `TimeoutExpired`
  or `FileNotFoundError`, each of which the source turns into `False`;
* every raised `HTTPException` of the source is a constructor of `Err`;
* Python float division `int(content_length) / (1024*1024)` is division by a
  power of two, exact on the relevant range, so the size comparison is modelled
  as the equivalent integer comparison `n > maxMB * 1048576`.
-/

/-! ## Generic list and string helpers (ASCII models of the Python primitives) -/

/-- Does the second list start with the first one? -/
def listLead {α : Type} [DecidableEq α] : List α → List α → Bool
  | [], _ => true
  | _ :: _, [] => false
  | a :: as, b :: bs => a = b && listLead as bs

/-- Substring containment on lists (Python `in` on `str`/`bytes`). -/
def listHas {α : Type} [DecidableEq α] (needle : List α) : List α → Bool
  | [] => needle.isEmpty
  | c :: tl => listLead needle (c :: tl) || listHas needle tl

/-- Python `needle in hay` for strings. -/
def strContains (hay needle : String) : Bool :=
  listHas needle.data hay.data

/-- ASCII lower-casing of a character (models `str.lower` on the ASCII URLs and
content types the pipeline handles). -/
def lcChar (c : Char) : Char :=
  if 65 ≤ c.toNat ∧ c.toNat ≤ 90 then Char.ofNat (c.toNat + 32) else c

/-- ASCII lower-casing of a string. -/
def lowerStr (s : String) : String :=
  String.mk (s.data.map lcChar)

/-- ASCII lower-casing of a byte string (models `bytes.lower`). -/
def bytesLower (b : List Nat) : List Nat :=
  b.map (fun x => if 65 ≤ x ∧ x ≤ 90 then x + 32 else x)

/-- Does `s` end with `suf`? (Python `str.endswith`.) -/
def strEndsWith (s suf : String) : Bool :=
  listLead suf.data.reverse s.data.reverse

/-- Split a path into directory part (with the trailing slash) and base name. -/
def splitLastSlash (cs : List Char) : List Char × List Char :=
  let base := (cs.reverse.takeWhile (fun c => c ≠ '/')).reverse
  (cs.take (cs.length - base.length), base)

/-- `os.path.splitext`: split off the extension at the last dot of the base
name, except when every character before that dot is itself a dot (hidden
files like `.bashrc` have no extension). -/
def splitext (p : String) : String × String :=
  let cs := p.data
  let dirBase := splitLastSlash cs
  let base := dirBase.2
  let tailNoDot := base.reverse.takeWhile (fun c => c ≠ '.')
  if tailNoDot.length = base.length then (p, "")
  else
    let dotIdx := base.length - tailNoDot.length - 1
    if (base.take dotIdx).any (fun c => c ≠ '.') then
      (String.mk (dirBase.1 ++ base.take dotIdx), String.mk (base.drop dotIdx))
    else (p, "")

/-! ## Regex-lite scanners for the three concrete URL patterns of the classifier -/

/-- Character class `[a-zA-Z0-9_-]` of the Drive id patterns. -/
def idChar (c : Char) : Bool :=
  c.isAlpha || c.isDigit || c = '_' || c = '-'

/-- Leftmost match of `lit(<good>+)`: models `re.search` for the patterns
`/file/d/([a-zA-Z0-9_-]+)` and `/share/([a-zA-Z0-9]+)`, returning the capture. -/
def scanCapture (lit : List Char) (good : Char → Bool) : List Char → Option String
  | [] => none
  | c :: cs =>
    if listLead lit (c :: cs) then
      let cap := ((c :: cs).drop lit.length).takeWhile good
      if cap.isEmpty then scanCapture lit good cs else some (String.mk cap)
    else scanCapture lit good cs

/-- Leftmost match of `[?&]id=([a-zA-Z0-9_-]+)`, returning the capture. -/
def scanIdParam : List Char → Option String
  | [] => none
  | c :: cs =>
    if (c = '?' || c = '&') && listLead "id=".data cs then
      let cap := (cs.drop 3).takeWhile idChar
      if cap.isEmpty then scanIdParam cs else some (String.mk cap)
    else scanIdParam cs

/-- `re.search(r'/file/d/([a-zA-Z0-9_-]+)', url)`. -/
def findFileD (url : String) : Option String :=
  scanCapture "/file/d/".data idChar url.data

/-- `re.search(r'[?&]id=([a-zA-Z0-9_-]+)', url)`. -/
def findIdParam (url : String) : Option String :=
  scanIdParam url.data

/-- `re.search(r'/share/([a-zA-Z0-9]+)', url)`. -/
def findLoomId (url : String) : Option String :=
  scanCapture "/share/".data (fun c => c.isAlpha || c.isDigit) url.data

/-! ## urllib helpers -/

/-- Scheme characters accepted by `urlparse` after the leading letter. -/
def schemeChar (c : Char) : Bool :=
  c.isAlpha || c.isDigit || c = '+' || c = '-' || c = '.'

/-- Split a list at the first occurrence of `c`. -/
def splitFirst (c : Char) : List Char → Option (List Char × List Char)
  | [] => none
  | x :: xs =>
    if x = c then some ([], xs)
    else (splitFirst c xs).map (fun p => (x :: p.1, p.2))

/-- Model of the check `parsed_url.scheme and parsed_url.netloc` after
`urlparse(url)`: a letter-led scheme followed by `://` and a non-empty host. -/
def urlWellFormed (url : String) : Bool :=
  match splitFirst ':' url.data with
  | none => false
  | some (scheme, rest) =>
    !scheme.isEmpty && (scheme.headD 'a').isAlpha && scheme.all schemeChar &&
    listLead "//".data rest &&
    !((rest.drop 2).takeWhile (fun c => c ≠ '/' && c ≠ '?' && c ≠ '#')).isEmpty

/-- Upper-case hex digit. -/
def hexDigit (n : Nat) : Char :=
  if n < 10 then Char.ofNat (48 + n) else Char.ofNat (55 + n)

/-- Percent-encode one byte. -/
def pctByte (b : Nat) : String :=
  "%" ++ String.singleton (hexDigit (b / 16)) ++ String.singleton (hexDigit (b % 16))

/-- UTF-8 bytes of a code point. -/
def utf8Bytes (n : Nat) : List Nat :=
  if n < 128 then [n]
  else if n < 2048 then [192 + n / 64, 128 + n % 64]
  else if n < 65536 then [224 + n / 4096, 128 + (n / 64) % 64, 128 + n % 64]
  else [240 + n / 262144, 128 + (n / 4096) % 64, 128 + (n / 64) % 64, 128 + n % 64]

/-- `urllib.parse.quote_plus` on one character. -/
def quotePlusChar (c : Char) : String :=
  if c.isAlpha || c.isDigit || c = '_' || c = '.' || c = '-' || c = '~' then
    String.singleton c
  else if c = ' ' then "+"
  else String.join ((utf8Bytes c.toNat).map pctByte)

/-- `urllib.parse.quote_plus`. -/
def quotePlus (s : String) : String :=
  String.join (s.data.map quotePlusChar)

/-- `urllib.parse.urlencode` over an ordered key/value list (Python dicts keep
insertion order). -/
def urlencodeKV (ps : List (String × String)) : String :=
  String.intercalate "&" (ps.map (fun p => quotePlus p.1 ++ "=" ++ quotePlus p.2))

/-! ## Python truthiness on optional strings -/

/-- Python truthiness of an optional string (`None` and `""` are falsy). -/
def truthy : Option String → Bool
  | none => false
  | some s => s ≠ ""

/-- Python `a or b` on optional strings. -/
def pyOr (a b : Option String) : Option String :=
  if truthy a then a else b

/-! ## The video-file validator `_is_valid_video_file` -/

/-- Recognized video extensions (source line 183). -/
def videoExtensions : List String :=
  [".mp4", ".mov", ".avi", ".mkv", ".webm", ".flv", ".wmv", ".m4v"]

/-- `len(b) >= 8 and b[4:8] == b'ftyp'` (MP4/MOV). -/
def sigFtyp (b : List Nat) : Bool :=
  decide (8 ≤ b.length) && ((b.drop 4).take 4 = [102, 116, 121, 112])

/-- `b[:4] == b'\x1a\x45\xdf\xa3'` (Matroska/WebM EBML header). -/
def sigEbml (b : List Nat) : Bool :=
  b.take 4 = [26, 69, 223, 163]

/-- `b[:4] == b'RIFF' and len(b) >= 12 and b'AVI' in b[8:12]`. -/
def sigRiffAvi (b : List Nat) : Bool :=
  (b.take 4 = [82, 73, 70, 70]) && decide (12 ≤ b.length) &&
    listHas [65, 86, 73] ((b.drop 8).take 4)

/-- `b[:3] == b'FLV'`. -/
def sigFlv (b : List Nat) : Bool :=
  b.take 3 = [70, 76, 86]

/-- Any of the four magic-number checks. -/
def sigMatch (b : List Nat) : Bool :=
  sigFtyp b || sigEbml b || sigRiffAvi b || sigFlv b

/-- The bytes the validator actually inspects: the provided `first_bytes` when
present and at least 4 bytes long, otherwise the result of reading the first 16
bytes of the file (`none` = the read raised, which the outer `except` turns
into `False`). -/
def effFirstBytes (firstBytes readRes : Option (List Nat)) : Option (List Nat) :=
  match firstBytes with
  | none => readRes
  | some fb => if fb.length < 4 then readRes else some fb

/-- `_is_valid_video_file(file_path, first_bytes)`.

`readRes` is the oracle for `open(file_path, "rb").read(16)`, `sizeRes` for
`os.path.getsize(file_path)` (`none` = the call raised) and `ffprobeOk` for
the success of the `ffprobe` subprocess. -/
def isValidVideoFile (filePath : String) (firstBytes readRes : Option (List Nat))
    (sizeRes : Option Nat) (ffprobeOk : Bool) : Bool :=
  match effFirstBytes firstBytes readRes with
  | none => false
  | some fb =>
    if fb.length < 4 then false
    else if sigFtyp fb then true
    else if sigEbml fb then true
    else if sigRiffAvi fb then true
    else if sigFlv fb then true
    else
      let ext := lowerStr (splitext filePath).2
      if videoExtensions.contains ext then
        match sizeRes with
        | none => false
        | some sz => if 1024 < sz then ffprobeOk else false
      else false

/-! ## Error taxonomy: the `HTTPException`s raised by `download_video_from_url` -/

/-- The distinct `HTTPException`s (and transport-error conversions) of the
source, by raise site. -/
inductive Err : Type
  /-- 400, invalid URL format (line 254). -/
  | badUrl
  /-- 400, invalid Google Drive URL (line 276). -/
  | badDriveUrl
  /-- 400, retry ceiling reached on entry (line 236). -/
  | retryCap
  /-- 400, exact URL already tried (line 243). -/
  | dupUrl
  /-- 400, declared content-length exceeds the ceiling (line 324). -/
  | sizeHead
  /-- 400, streamed byte total exceeds the ceiling (line 656). -/
  | sizeStream
  /-- 400, downloaded file failed video validation (line 672). -/
  | notVideo
  /-- 400, confirmation retries exhausted (line 586). -/
  | exhausted
  /-- 400, every confirmation method failed (line 610). -/
  | allFailed
  /-- 404 from upstream (line 683). -/
  | notFound
  /-- 403 from upstream (line 688). -/
  | forbidden
  /-- 401 from upstream (line 693). -/
  | authRequired
  /-- other upstream status (line 698). -/
  | remoteFail (code : Nat)
  /-- 408, transport timeout (line 703). -/
  | timeoutErr
  /-- 503, transport/network failure (line 708). -/
  | networkErr
  /-- fuel exhaustion marker of the embedding; unreachable from the wrapper. -/
  | fuelOut
deriving DecidableEq, Repr

/-- `httpx.HTTPStatusError` classification at lines 680-701. -/
def classifyStatus (c : Nat) : Err :=
  if c = 404 then .notFound
  else if c = 403 then .forbidden
  else if c = 401 then .authRequired
  else .remoteFail c

/-! ## The URL classifier (lines 250-295) -/

/-- URL classification: format validation (first attempt only), Google Drive
share-link rewriting, and Loom share-link rewriting. Returns the possibly
rewritten URL together with the possibly extracted resource id. -/
def classify (url : String) (fileId : Option String) (isRetry : Bool) :
    Except Err (String × Option String) :=
  if !isRetry && !urlWellFormed url then .error .badUrl
  else if fileId.isNone && strContains (lowerStr url) "drive.google.com" then
    match findFileD url with
    | some fid =>
      .ok ("https://drive.google.com/uc?export=download&id=" ++ fid, some fid)
    | none =>
      match findIdParam url with
      | some fid => .ok (url, some fid)
      | none => .error .badDriveUrl
  else if strContains (lowerStr url) "loom.com" ||
      strContains (lowerStr url) "loom.share" then
    if strContains url "/share/" then
      match findLoomId url with
      | some lid =>
        .ok ("https://cdn.loom.com/sessions/videos/" ++ lid ++ "/transcoded.mp4",
          fileId)
      | none => .ok (url, fileId)
    else .ok (url, fileId)
  else .ok (url, fileId)

/-! ## Transfer executor data -/

/-- Headers of a successful HEAD probe. -/
structure HeadInfo : Type where
  contentType : String
  contentLength : Option Nat
deriving DecidableEq, Repr

/-- Outcome of `client.head(url)` followed by `raise_for_status()`.
`statusError` is `httpx.HTTPStatusError` (the only exception the source
catches at line 346); `timeoutE` and `networkE` are transport failures that
escape to the handlers at lines 702-711. -/
inductive HeadOutcome : Type
  | ok (info : HeadInfo)
  | statusError
  | timeoutE
  | networkE
deriving DecidableEq, Repr

/-- Result of the regex scraping of a confirmation page (lines 388-514),
carried with the response as an oracle:
* `downloadUrlFound`: the normalized URL of methods 1/1b ("Download anyway"
  link or any download link), after escape cleanup and absolutization;
* `jsUrl`: the normalized URL of method 2 (JavaScript variables), used only
  when method 1 found nothing;
* `hiddenMatches`: the `(name, value)` pairs of the hidden-input `finditer`
  loops in match order, quote-stripped;
* `altToken`: the confirmation token of the fallback `token_patterns` scan. -/
structure PageAnalysis : Type where
  downloadUrlFound : Option String
  jsUrl : Option String
  hiddenMatches : List (String × String)
  altToken : Option String
deriving DecidableEq, Repr

/-- A streamed GET response: declared content type, body chunks (as yielded by
`aiter_bytes`), and the scraping oracle for its body. -/
structure GetResponse : Type where
  contentType : String
  chunks : List (List Nat)
  analysis : PageAnalysis
deriving DecidableEq, Repr

/-- Outcome of `client.stream("GET", url)` with `raise_for_status()`. -/
inductive GetOutcome : Type
  | ok (resp : GetResponse)
  | statusErr (code : Nat)
  | timeoutE
  | networkE
deriving DecidableEq, Repr

/-- Per-URL network behaviour. -/
structure UrlBehavior : Type where
  headO : HeadOutcome
  getO : GetOutcome
deriving DecidableEq, Repr

/-- The pipeline's environment: the network oracle, the configured
`MAX_VIDEO_SIZE_MB`, and the ffprobe oracle (a function of file contents). -/
structure Env : Type where
  net : String → UrlBehavior
  maxSizeMB : Nat
  ffprobe : List Nat → Bool

/-- Observable events of one logical acquisition, in chronological order:
`mark u rc` is `tried_urls.add(u)` on entry of an invocation with attempt
counter `rc`; `headReq`/`getReq` are the network dispatches. -/
inductive Ev : Type
  | mark (url : String) (rc : Nat)
  | headReq (url : String)
  | getReq (url : String)
deriving DecidableEq, Repr

/-- Threaded state: the accumulated attempted-URL set (insertion order kept)
and the filesystem. -/
structure TState : Type where
  tried : List String
  disk : List (String × List Nat)
deriving DecidableEq, Repr

/-- Write (create or overwrite) a file. -/
def diskWrite (d : List (String × List Nat)) (p : String) (c : List Nat) :
    List (String × List Nat) :=
  (p, c) :: d.filter (fun e => e.1 ≠ p)

/-- `os.remove`. -/
def diskRemove (d : List (String × List Nat)) (p : String) :
    List (String × List Nat) :=
  d.filter (fun e => e.1 ≠ p)

/-- Current contents of a file, if present. -/
def diskGet (d : List (String × List Nat)) (p : String) : Option (List Nat) :=
  (d.find? (fun e => e.1 = p)).map (fun e => e.2)

/-! ## Extension resolution -/

/-- Extension from the filename hint (lines 299-300), unset when the hint is
absent, empty, or has no extension (Python falsiness of `""`). -/
def hintExt (h : Option String) : Option String :=
  match h with
  | none => none
  | some hs =>
    if hs = "" then none
    else
      let e := lowerStr (splitext hs).2
      if e = "" then none else some e

/-- Content-type → extension mapping of the HEAD phase (lines 332-344),
defaulting to `.mp4`. -/
def ctExtHead (ct : String) : String :=
  if strContains ct "video/mp4" then ".mp4"
  else if strContains ct "video/webm" then ".webm"
  else if strContains ct "video/quicktime" || strContains ct "video/mov" then ".mov"
  else if strContains ct "video/x-msvideo" then ".avi"
  else ".mp4"

/-- The HEAD probe (lines 312-349): a declared content-length above the
ceiling fails fast; otherwise the extension is resolved from the hint or the
HEAD content type; an `HTTPStatusError` is swallowed (extension defaults to
`.mp4`); transport failures propagate. Returns the resolved extension. -/
def headPhase (h : HeadOutcome) (maxMB : Nat) (fe0 : Option String) :
    Except Err String :=
  match h with
  | .ok info =>
    match info.contentLength with
    | some n =>
      if maxMB * 1048576 < n then .error .sizeHead
      else .ok (fe0.getD (ctExtHead (lowerStr info.contentType)))
    | none => .ok (fe0.getD (ctExtHead (lowerStr info.contentType)))
  | .statusError => .ok (fe0.getD ".mp4")
  | .timeoutE => .error .timeoutErr
  | .networkE => .error .networkErr

/-- The GET-phase re-resolution (lines 615-627): an unset or `.mp4` extension
is re-derived from the GET content type; `application/octet-stream` keeps the
current extension (defaulting to `.mp4`); anything else leaves it unchanged. -/
def resolveExtGet (fe : String) (ct : String) : String :=
  if fe = "" || fe = ".mp4" then
    if strContains ct "video/mp4" then ".mp4"
    else if strContains ct "video/webm" then ".webm"
    else if strContains ct "video/quicktime" || strContains ct "video/mov" then ".mov"
    else if strContains ct "video/x-msvideo" then ".avi"
    else if strContains ct "application/octet-stream" then
      (if fe = "" then ".mp4" else fe)
    else fe
  else fe

/-- Path rewrite of lines 629-632: rewrite the output path to carry the
resolved extension unless it already ends with it. -/
def pathWithExt (outputPath ext : String) : String :=
  if strEndsWith outputPath ext then outputPath
  else (splitext outputPath).1 ++ ext

/-! ## Streamed body transfer (lines 634-661) -/

/-- Total byte length of a chunk list. -/
def sumLens (chunks : List (List Nat)) : Nat :=
  (chunks.map List.length).sum

/-- The chunk loop: capture the first ≤12 bytes of the first chunk, accumulate
the running total, and abort (returning the bytes written so far, which the
caller deletes) the instant the total exceeds the ceiling; the crossing chunk
is not written. On success returns (file contents, captured first bytes,
total). -/
def runStreamGo (maxB : Nat) (w : List Nat) (fb : Option (List Nat)) (tot : Nat) :
    List (List Nat) → Except (List Nat) (List Nat × List Nat × Nat)
  | [] => .ok (w, fb.getD [], tot)
  | c :: cs =>
    let fb2 := some (fb.getD (c.take 12))
    let tot2 := tot + c.length
    if maxB < tot2 then .error w
    else runStreamGo maxB (w ++ c) fb2 tot2 cs

/-- Stream a whole body against the byte ceiling. -/
def runStream (maxB : Nat) (chunks : List (List Nat)) :
    Except (List Nat) (List Nat × List Nat × Nat) :=
  runStreamGo maxB [] none 0 chunks

/-- The tail of a successful (non-interstitial) transfer (lines 615-678):
re-resolve the extension from the GET content type, rewrite the output path,
stream the body with the size cap (deleting the partial file on overflow),
validate the result (deleting it when invalid), and return the final path and
total byte size. -/
def finishDownload (env : Env) (outputPath fe1 ct : String)
    (chunks : List (List Nat)) (t : TState) :
    TState × Except Err (String × Nat) :=
  let fe2 := resolveExtGet fe1 ct
  let finalPath := pathWithExt outputPath fe2
  match runStream (env.maxSizeMB * 1048576) chunks with
  | .error _ => ({ t with disk := diskRemove t.disk finalPath }, .error .sizeStream)
  | .ok r =>
    let d2 := diskWrite t.disk finalPath r.1
    if isValidVideoFile finalPath (some r.2.1) (some (r.1.take 16))
        (some r.2.2) (env.ffprobe r.1) then
      ({ t with disk := d2 }, .ok (finalPath, r.2.2))
    else
      ({ t with disk := diskRemove d2 finalPath }, .error .notVideo)

/-! ## HTML confirmation extractor (lines 359-613) -/

/-- Accumulate body chunks into `html_chunk`, stopping once 512 KiB is reached;
returns the accumulated bytes and the unconsumed chunks (the body iterator is
shared, so a fall-through download continues mid-stream). -/
def htmlSplitGo (acc : List Nat) : List (List Nat) → List Nat × List (List Nat)
  | [] => (acc, [])
  | c :: cs =>
    let acc2 := acc ++ c
    if 524288 ≤ acc2.length then (acc2, cs) else htmlSplitGo acc2 cs

/-- The whole html accumulation loop (lines 365-370). -/
def htmlSplit (chunks : List (List Nat)) : List Nat × List (List Nat) :=
  htmlSplitGo [] chunks

/-- Line 372: `html_chunk.startswith(b"<!DOCTYPE") or
html_chunk.startswith(b"<html") or b"<html" in html_chunk[:1000].lower()`. -/
def looksHtml (b : List Nat) : Bool :=
  listLead [60, 33, 68, 79, 67, 84, 89, 80, 69] b ||
  listLead [60, 104, 116, 109, 108] b ||
  listHas [60, 104, 116, 109, 108] (bytesLower (b.take 1000))

/-- First-occurrence-wins accumulation of hidden input fields
(lines 480-486: values are never overwritten). -/
def buildHidden (ms : List (String × String)) : List (String × String) :=
  ms.foldl (fun acc m =>
    if (acc.find? (fun e => e.1 = m.1)).isSome then acc else acc ++ [m]) []

/-- `hidden_inputs.get(k)` (first stored value). -/
def pyLookup (m : List (String × String)) (k : String) : Option String :=
  (m.find? (fun e => e.1 = k)).map (fun e => e.2)

/-- The priority continuation URL built from the hidden form fields
(lines 517-532): `https://drive.usercontent.google.com/download` carrying id,
export, authuser, confirm and, when truthy, uuid and at. -/
def workingUrl (fid exportV authuserV tok : String) (uuidV atV : Option String) :
    String :=
  "https://drive.usercontent.google.com/download?" ++
    urlencodeKV ([("id", fid), ("export", exportV), ("authuser", authuserV),
        ("confirm", tok)]
      ++ (if truthy uuidV then [("uuid", uuidV.getD "")] else [])
      ++ (if truthy atV then [("at", atV.getD "")] else []))

/-- The legacy confirm URL of lines 567-568. -/
def confirmUrl (tok fid : String) : String :=
  "https://drive.google.com/uc?export=download&confirm=" ++ tok ++ "&id=" ++ fid

/-- The last-resort generic `confirm=t` URL of line 593. -/
def genericConfirmUrl (fid : String) : String :=
  "https://drive.google.com/uc?export=download&confirm=t&id=" ++ fid

/-! ## The retry controller -/

/-- `retry_count` ceiling (line 234). -/
def MAX_RETRIES : Nat := 3

/-- The arguments of one `download_video_from_url` invocation. -/
structure DlArgs : Type where
  url : String
  outputPath : String
  filenameHint : Option String
  fileId : Option String
  isRetry : Bool
  retryCount : Nat
deriving DecidableEq, Repr

/-- Result of one invocation: final threaded state, chronological event list,
and the returned value or raised `HTTPException`. -/
abbrev DlRes : Type := TState × List Ev × Except Err (String × Nat)

/-- Try candidate continuation URLs in order (the `if ... not in tried_urls:
try: return await download_video_from_url(...) except HTTPException: pass`
blocks): a candidate already in the attempted set is skipped; a candidate
whose recursive attempt raises is swallowed and the next candidate tried. -/
def attemptList (f : String → TState → DlRes) :
    List String → TState → TState × List Ev × Option (String × Nat)
  | [], t => (t, [], none)
  | c :: cs, t =>
    if c ∈ t.tried then attemptList f cs t
    else
      match f c t with
      | (t2, evs, .ok r) => (t2, evs, some r)
      | (t2, evs, .error _) =>
        let z := attemptList f cs t2
        (z.1, evs ++ z.2.1, z.2.2)

/-- The candidate continuation URLs of the confirmation extractor, in priority
order: the hidden-field working URL (when a confirm token is available), the
found download link (methods 1/1b/2), and the extracted-token legacy confirm
URL (excluding the generic placeholder tokens). -/
def interCands (fid : String) (an : PageAnalysis) : List String :=
  let duf := pyOr an.downloadUrlFound an.jsUrl
  let hidden := buildHidden an.hiddenMatches
  let confirmTok :=
    pyOr (pyOr (pyLookup hidden "confirm") (pyLookup hidden "t")) an.altToken
  let uuidV := pyLookup hidden "uuid"
  let atV := pyLookup hidden "at"
  let authuserV := (pyLookup hidden "authuser").getD "0"
  let exportV := (pyLookup hidden "export").getD ""
  (if truthy confirmTok then
      [workingUrl fid exportV authuserV (confirmTok.getD "") uuidV atV]
    else [])
  ++ (if truthy duf then [duf.getD ""] else [])
  ++ (if truthy confirmTok && !((["t", "yes"] : List String).contains (confirmTok.getD "")) then
        [confirmUrl (confirmTok.getD "") fid]
      else [])

/-- The confirmation-page handler (lines 372-613), given the scraping oracle:
derive the candidate URLs in priority order (hidden-field working URL, found
download link, extracted-token confirm URL), attempt them, then apply the
retry-ceiling check, the one-shot generic `confirm=t` fallback, and the final
failure. `recur` is the recursive re-invocation. -/
def interstitial (recur : DlArgs → TState → DlRes) (a : DlArgs) (fid : String)
    (an : PageAnalysis) (t : TState) : DlRes :=
  let childArgs := fun (u : String) =>
    { a with url := u, fileId := some fid, isRetry := true,
             retryCount := a.retryCount + 1 }
  match attemptList (fun u => recur (childArgs u)) (interCands fid an) t with
  | (t2, evs, some r) => (t2, evs, .ok r)
  | (t2, evs, none) =>
    if MAX_RETRIES - 1 ≤ a.retryCount then (t2, evs, .error .exhausted)
    else if a.retryCount = 0 then
      match attemptList (fun u => recur (childArgs u)) [genericConfirmUrl fid] t2 with
      | (t3, evs2, some r) => (t3, evs ++ evs2, .ok r)
      | (t3, evs2, none) => (t3, evs ++ evs2, .error .allFailed)
    else (t2, evs, .error .allFailed)

/-- The network phase of one invocation, after classification: HEAD probe, GET
dispatch, interstitial detection and handling, or the plain download tail. -/
def dlNet (env : Env) (recur : DlArgs → TState → DlRes) (a : DlArgs)
    (url : String) (fileId : Option String) (t : TState) : DlRes :=
  match headPhase (env.net url).headO env.maxSizeMB (hintExt a.filenameHint) with
  | .error e => (t, [.headReq url], .error e)
  | .ok fe1 =>
    match (env.net url).getO with
    | .statusErr c => (t, [.headReq url, .getReq url], .error (classifyStatus c))
    | .timeoutE => (t, [.headReq url, .getReq url], .error .timeoutErr)
    | .networkE => (t, [.headReq url, .getReq url], .error .networkErr)
    | .ok resp =>
      let ct := lowerStr resp.contentType
      if truthy fileId && strContains ct "text/html" then
        let pr := htmlSplit resp.chunks
        if looksHtml pr.1 then
          let z := interstitial recur a (fileId.getD "") resp.analysis t
          (z.1, [Ev.headReq url, Ev.getReq url] ++ z.2.1, z.2.2)
        else
          let w := finishDownload env a.outputPath fe1 ct pr.2 t
          (w.1, [.headReq url, .getReq url], w.2)
      else
        let w := finishDownload env a.outputPath fe1 ct resp.chunks t
        (w.1, [.headReq url, .getReq url], w.2)

/-- One invocation body of `download_video_from_url`: the retry-ceiling guard
(line 235), the duplicate-URL guard (line 242), the `tried_urls.add(url)`
(line 248), classification, and the network phase. -/
def dlStep (env : Env) (recur : DlArgs → TState → DlRes) (a : DlArgs)
    (t : TState) : DlRes :=
  if MAX_RETRIES ≤ a.retryCount then (t, [], .error .retryCap)
  else if a.url ∈ t.tried then (t, [], .error .dupUrl)
  else
    match classify a.url a.fileId a.isRetry with
    | .error e =>
      ({ t with tried := t.tried ++ [a.url] }, [.mark a.url a.retryCount], .error e)
    | .ok p =>
      let z := dlNet env recur a p.1 p.2 { t with tried := t.tried ++ [a.url] }
      (z.1, Ev.mark a.url a.retryCount :: z.2.1, z.2.2)

/-- The recursion, driven by fuel. The retry counter rises by 1 on each
re-invocation and the ceiling guard fires at `MAX_RETRIES`, so any fuel of at
least `MAX_RETRIES + 1 - retryCount` makes `.fuelOut` unreachable. -/
def dlGo (env : Env) : Nat → DlArgs → TState → DlRes
  | 0, _, t => (t, [], .error .fuelOut)
  | fuel + 1, a, t => dlStep env (dlGo env fuel) a t

/-- `download_video_from_url(url, output_path, filename_hint, file_id,
is_retry, retry_count, tried_urls)` over an environment, with the filesystem
threaded in. -/
def download_video_from_url (env : Env) (url outputPath : String)
    (filenameHint : Option String) (fileId : Option String) (isRetry : Bool)
    (retryCount : Nat) (tried : List String) (disk : List (String × List Nat)) :
    DlRes :=
  dlGo env (MAX_RETRIES + 1)
    { url := url, outputPath := outputPath, filenameHint := filenameHint,
      fileId := fileId, isRetry := isRetry, retryCount := retryCount }
    { tried := tried, disk := disk }

/-! ## Trace observations -/

/-- Number of HEAD dispatches in a trace. -/
def countHead (es : List Ev) : Nat :=
  (es.filter (fun e => match e with | .headReq _ => true | _ => false)).length

/-- Number of invocation marks in a trace. -/
def countMark (es : List Ev) : Nat :=
  (es.filter (fun e => match e with | .mark _ _ => true | _ => false)).length

/-- The invocation URLs marked in a trace, in order. -/
def markUrls (es : List Ev) : List String :=
  es.filterMap (fun e => match e with | .mark u _ => some u | _ => none)

/-- The attempt counters marked in a trace, in order. -/
def markRcs (es : List Ev) : List Nat :=
  es.filterMap (fun e => match e with | .mark _ rc => some rc | _ => none)

/-- Number of GET dispatches to a given URL. -/
def countGetTo (u : String) (es : List Ev) : Nat :=
  (es.filter (fun e => e = Ev.getReq u)).length

/-- Balance automaton: every prefix of the trace has at least as many marks as
HEAD dispatches and at least as many HEAD as GET dispatches — each network
request is covered by a prior `tried_urls.add` and each GET by a prior HEAD. -/
def balAux : List Ev → Nat → Nat → Bool
  | [], _, _ => true
  | .mark _ _ :: es, m, h => balAux es (m + 1) h
  | .headReq _ :: es, m, h => decide (0 < m) && balAux es (m - 1) (h + 1)
  | .getReq _ :: es, m, h => decide (0 < h) && balAux es m (h - 1)

/-- Adjacent marked attempt counters rise by at most one: a re-invocation
increments the counter by exactly 1, a swallowed failure returns to the
sibling level. -/
def rcChainB : List Nat → Bool
  | [] => true
  | [_] => true
  | x :: y :: tl => decide (y ≤ x + 1) && rcChainB (y :: tl)

deriving instance DecidableEq for Except

/-! ## Concrete scenario material shared by several results -/

/-- An empty scraping result. -/
def noAnalysis : PageAnalysis := ⟨none, none, [], none⟩

/-- `b"<!DOCTYPE html>"`. -/
def sampleHtml : List Nat := [60, 33, 68, 79, 67, 84, 89, 80, 69, 32, 104, 116, 109, 108, 62]

/-- A 12-byte MP4 header: box size then `ftyp` at offset 4. -/
def ftypChunk : List Nat := [0, 0, 0, 24, 102, 116, 121, 112, 109, 112, 52, 50]

/-- A 12-byte Matroska/WebM header: EBML magic then padding. -/
def ebmlChunk : List Nat := [26, 69, 223, 163, 0, 0, 0, 0, 0, 0, 0, 0]

/-- An ffprobe oracle that always fails (tool absent or rejecting). -/
def prFalse : List Nat → Bool := fun _ => false

/-- Environment with the same behaviour for every URL. -/
def constEnv (maxMB : Nat) (b : UrlBehavior) (pr : List Nat → Bool) : Env :=
  { net := fun _ => b, maxSizeMB := maxMB, ffprobe := pr }

/-! ## Results -/

/-- C10: the validator is fail-closed: it is a total Boolean function (it
cannot propagate an exception: read failures, `getsize` failures and ffprobe
failures are oracle inputs that the model, like the source's `except` blocks,
turns into `False`), and it returns `true` only with positive evidence — at
least 4 effective leading bytes together with either a magic-number match or
the full extension/size/ffprobe fallback succeeding. Every internal error
(missing readable bytes, unsizeable file, failing or absent ffprobe) yields
`False`, never `True`. -/
theorem c10_validator_fail_closed : ∀ p fb rf sz pr,
    isValidVideoFile p fb rf sz pr = true →
    ∃ b, effFirstBytes fb rf = some b ∧ 4 ≤ b.length ∧
      (sigMatch b = true ∨
        (videoExtensions.contains (lowerStr (splitext p).2) = true ∧
          (∃ n, sz = some n ∧ 1024 < n) ∧ pr = true)) := by
  intro p fb rf sz pr h
  unfold isValidVideoFile at h
  cases heff : effFirstBytes fb rf with
  | none => rw [heff] at h; cases h
  | some b =>
    rw [heff] at h
    dsimp only at h
    refine ⟨b, rfl, ?_, ?_⟩
    · by_cases h4 : b.length < 4
      · rw [if_pos h4] at h; cases h
      · omega
    · by_cases h4 : b.length < 4
      · rw [if_pos h4] at h; cases h
      rw [if_neg h4] at h
      by_cases h1 : sigFtyp b = true
      · exact Or.inl (by simp [sigMatch, h1])
      rw [if_neg (by simpa using h1)] at h
      by_cases h2 : sigEbml b = true
      · exact Or.inl (by simp [sigMatch, h2])
      rw [if_neg (by simpa using h2)] at h
      by_cases h3 : sigRiffAvi b = true
      · exact Or.inl (by simp [sigMatch, h3])
      rw [if_neg (by simpa using h3)] at h
      by_cases h5 : sigFlv b = true
      · exact Or.inl (by simp [sigMatch, h5])
      rw [if_neg (by simpa using h5)] at h
      right
      by_cases hext : videoExtensions.contains (lowerStr (splitext p).2) = true
      · refine ⟨hext, ?_⟩
        rw [if_pos (by simpa using hext)] at h
        cases sz with
        | none => cases h
        | some n =>
          simp only at h
          by_cases hsz : 1024 < n
          · rw [if_pos hsz] at h
            exact ⟨⟨n, rfl, hsz⟩, h⟩
          · rw [if_neg hsz] at h; cases h
      · rw [if_neg (by simpa using hext)] at h; cases h

/-- C10 witness: a file whose provided leading bytes carry `ftyp` at offset 4
is accepted, and the fail-closed characterization holds for it. -/
theorem c10_validator_fail_closed_witness :
    ∃ b, effFirstBytes (some ftypChunk) none = some b ∧ 4 ≤ b.length ∧
      (sigMatch b = true ∨
        (videoExtensions.contains (lowerStr (splitext "/tmp/f.bin").2) = true ∧
          (∃ n, (none : Option Nat) = some n ∧ 1024 < n) ∧ false = true)) :=
  c10_validator_fail_closed "/tmp/f.bin" (some ftypChunk) none none false (by decide)

/-- C4: given at least 4 provided leading bytes, the validator accepts exactly
when `ftyp` sits at bytes 4-7 (whatever the preceding 4-byte size), or the
first 4 bytes are the EBML/Matroska header `1A 45 DF A3`, or the first 4 bytes
are `RIFF` with `AVI` inside bytes 8-11, or the first 3 bytes are `FLV`, or
the extension/ffprobe fallback succeeds; concretely a file with bytes
`66 74 79 70` at offset 4 is accepted, and a transfer whose body starts with
`<!DOCTYPE html` is rejected with the downloaded file removed from disk before
the failure is reported. -/
theorem c4_signature_validation :
    (∀ p fb rf sz pr, 4 ≤ fb.length →
      (isValidVideoFile p (some fb) rf sz pr = true ↔
        (sigFtyp fb = true ∨ sigEbml fb = true ∨ sigRiffAvi fb = true ∨
          sigFlv fb = true ∨
          (videoExtensions.contains (lowerStr (splitext p).2) = true ∧
            (∃ n, sz = some n ∧ 1024 < n) ∧ pr = true)))) ∧
    isValidVideoFile "/tmp/f.bin" (some ftypChunk) none none false = true ∧
    (download_video_from_url
        (constEnv 100 ⟨.ok ⟨"", none⟩, .ok ⟨"text/html", [sampleHtml], noAnalysis⟩⟩
          prFalse)
        "http://host/video" "/tmp/out" none none false 0 [] []).2.2 =
      .error .notVideo ∧
    (download_video_from_url
        (constEnv 100 ⟨.ok ⟨"", none⟩, .ok ⟨"text/html", [sampleHtml], noAnalysis⟩⟩
          prFalse)
        "http://host/video" "/tmp/out" none none false 0 [] []).1.disk = [] := by
  refine ⟨?_, by decide, by decide, by decide⟩
  intro p fb rf sz pr h4
  have hne : ¬ fb.length < 4 := by omega
  unfold isValidVideoFile effFirstBytes
  dsimp only
  rw [if_neg hne]
  dsimp only
  rw [if_neg hne]
  by_cases h1 : sigFtyp fb = true
  · simp [h1]
  rw [if_neg h1]
  by_cases h2 : sigEbml fb = true
  · simp [h1, h2]
  rw [if_neg h2]
  by_cases h3 : sigRiffAvi fb = true
  · simp [h1, h2, h3]
  rw [if_neg h3]
  by_cases h5 : sigFlv fb = true
  · simp [h1, h2, h3, h5]
  rw [if_neg h5]
  by_cases hext : videoExtensions.contains (lowerStr (splitext p).2) = true
  · have hmem : lowerStr (splitext p).2 ∈ videoExtensions := by simpa using hext
    rw [if_pos hext]
    cases sz with
    | none => simp [h1, h2, h3, h5, hmem]
    | some n =>
      by_cases hsz : 1024 < n
      · simp [h1, h2, h3, h5, hmem, hsz]
      · simp [h1, h2, h3, h5, hmem, hsz]
  · have hmem : lowerStr (splitext p).2 ∉ videoExtensions := by simpa using hext
    rw [if_neg hext]
    simp [h1, h2, h3, h5, hmem]

/-- C4 witness: the characterization applied to the concrete `ftyp` header
bytes. -/
theorem c4_signature_validation_witness :
    isValidVideoFile "/tmp/f.bin" (some ftypChunk) none none false = true ↔
      (sigFtyp ftypChunk = true ∨ sigEbml ftypChunk = true ∨
        sigRiffAvi ftypChunk = true ∨ sigFlv ftypChunk = true ∨
        (videoExtensions.contains (lowerStr (splitext "/tmp/f.bin").2) = true ∧
          (∃ n, (none : Option Nat) = some n ∧ 1024 < n) ∧ false = true)) :=
  c4_signature_validation.1 "/tmp/f.bin" ftypChunk none none false (by decide)

/-- A body that fits under the ceiling streams to completion, returning the
running total. -/
theorem runStreamGo_ok : ∀ (cs : List (List Nat)) (maxB : Nat) (w : List Nat)
    (fb : Option (List Nat)) (tot : Nat), tot + sumLens cs ≤ maxB →
    ∃ w2 fb2, runStreamGo maxB w fb tot cs = .ok (w2, fb2, tot + sumLens cs) := by
  intro cs
  induction cs with
  | nil =>
    intro maxB w fb tot _
    exact ⟨w, fb.getD [], by simp [runStreamGo, sumLens]⟩
  | cons c cs ih =>
    intro maxB w fb tot h
    have hsum : sumLens (c :: cs) = c.length + sumLens cs := by
      simp [sumLens]
    rw [hsum] at h
    have hc : ¬ maxB < tot + c.length := by omega
    simp only [runStreamGo, if_neg hc]
    have heq : tot + sumLens (c :: cs) = (tot + c.length) + sumLens cs := by
      rw [hsum]; omega
    rw [heq]
    exact ih maxB (w ++ c) (some (fb.getD (c.take 12))) (tot + c.length) (by omega)

/-- A body whose total crosses the ceiling aborts the stream. -/
theorem runStreamGo_overflow : ∀ (cs : List (List Nat)) (maxB : Nat)
    (w : List Nat) (fb : Option (List Nat)) (tot : Nat),
    maxB < tot + sumLens cs → tot ≤ maxB →
    ∃ w2, runStreamGo maxB w fb tot cs = .error w2 := by
  intro cs
  induction cs with
  | nil =>
    intro maxB w fb tot h1 h2
    simp [sumLens] at h1
    omega
  | cons c cs ih =>
    intro maxB w fb tot h1 h2
    have hsum : sumLens (c :: cs) = c.length + sumLens cs := by
      simp [sumLens]
    by_cases hc : maxB < tot + c.length
    · exact ⟨w, by simp only [runStreamGo, if_pos hc]⟩
    · simp only [runStreamGo, if_neg hc]
      exact ih maxB (w ++ c) (some (fb.getD (c.take 12))) (tot + c.length)
        (by omega) (by omega)

/-- C9: both size checks are strict: a declared content-length exactly equal
to `MAX_VIDEO_SIZE_MB` bytes passes the HEAD check and the extension is
resolved normally; a streamed body whose accumulated total is exactly the
ceiling streams to completion; and, at pipeline level, with the ceiling at 0
and an empty (0-byte) declared and streamed body the failure is the payload
validation, not a size-exceeded error. -/
theorem c9_boundary_strictness :
    (∀ maxMB ct fe0, headPhase (.ok ⟨ct, some (maxMB * 1048576)⟩) maxMB fe0 =
      .ok (fe0.getD (ctExtHead (lowerStr ct)))) ∧
    (∀ maxB chunks, sumLens chunks = maxB →
      ∃ w fb, runStream maxB chunks = .ok (w, fb, maxB)) ∧
    (download_video_from_url
        (constEnv 0 ⟨.ok ⟨"", some 0⟩, .ok ⟨"video/mp4", [], noAnalysis⟩⟩ prFalse)
        "http://host/video" "/tmp/out" none none false 0 [] []).2.2 =
      .error .notVideo := by
  refine ⟨?_, ?_, by decide⟩
  · intro maxMB ct fe0
    simp [headPhase]
  · intro maxB chunks h
    obtain ⟨w2, fb2, hr⟩ := runStreamGo_ok chunks maxB [] none 0 (by rw [h]; omega)
    exact ⟨w2, fb2, by rw [runStream, hr, Nat.zero_add, h]⟩

/-- C9 witness: ceiling 1 MB with declared length exactly 1048576 passes the
probe, and a 3-byte body against a 3-byte ceiling streams fully. -/
theorem c9_boundary_strictness_witness :
    headPhase (.ok ⟨"", some (1 * 1048576)⟩) 1 none =
      .ok ((none : Option String).getD (ctExtHead (lowerStr ""))) ∧
    (∃ w fb, runStream 3 [[1, 2, 3]] = .ok (w, fb, 3)) :=
  ⟨c9_boundary_strictness.1 1 "" none,
    c9_boundary_strictness.2.1 3 [[1, 2, 3]] (by decide)⟩

/-! ## Unfolding lemmas for the pipeline -/

/-- A fresh invocation below the retry ceiling, on an untried URL, with a
successful classification, marks the URL and runs the network phase. -/
theorem dlGo_succ_run (env : Env) (fuel : Nat) (a : DlArgs) (t : TState)
    (h1 : ¬ MAX_RETRIES ≤ a.retryCount) (h2 : a.url ∉ t.tried)
    (u2 : String) (fid2 : Option String)
    (hc : classify a.url a.fileId a.isRetry = .ok (u2, fid2)) :
    dlGo env (fuel + 1) a t =
      ((dlNet env (dlGo env fuel) a u2 fid2 { t with tried := t.tried ++ [a.url] }).1,
        Ev.mark a.url a.retryCount ::
          (dlNet env (dlGo env fuel) a u2 fid2 { t with tried := t.tried ++ [a.url] }).2.1,
        (dlNet env (dlGo env fuel) a u2 fid2 { t with tried := t.tried ++ [a.url] }).2.2) := by
  simp only [dlGo, dlStep, if_neg h1, if_neg h2, hc]

/-- A failing probe (other than a swallowed `HTTPStatusError`) ends the
attempt after the HEAD dispatch. -/
theorem dlNet_headErr (env : Env) (recur : DlArgs → TState → DlRes) (a : DlArgs)
    (url : String) (fileId : Option String) (t : TState) (e : Err)
    (hh : headPhase (env.net url).headO env.maxSizeMB (hintExt a.filenameHint) = .error e) :
    dlNet env recur a url fileId t = (t, [.headReq url], .error e) := by
  simp only [dlNet, hh]

/-- A GET status failure is classified after both dispatches. -/
theorem dlNet_getStatus (env : Env) (recur : DlArgs → TState → DlRes) (a : DlArgs)
    (url : String) (fileId : Option String) (t : TState) (fe1 : String) (c : Nat)
    (hh : headPhase (env.net url).headO env.maxSizeMB (hintExt a.filenameHint) = .ok fe1)
    (hg : (env.net url).getO = .statusErr c) :
    dlNet env recur a url fileId t =
      (t, [.headReq url, .getReq url], .error (classifyStatus c)) := by
  simp only [dlNet, hh, hg]

/-- A non-interstitial GET response runs the plain download tail. -/
theorem dlNet_finish (env : Env) (recur : DlArgs → TState → DlRes) (a : DlArgs)
    (url : String) (fileId : Option String) (t : TState) (fe1 : String)
    (resp : GetResponse)
    (hh : headPhase (env.net url).headO env.maxSizeMB (hintExt a.filenameHint) = .ok fe1)
    (hg : (env.net url).getO = .ok resp)
    (hni : (truthy fileId && strContains (lowerStr resp.contentType) "text/html") = false) :
    dlNet env recur a url fileId t =
      ((finishDownload env a.outputPath fe1 (lowerStr resp.contentType) resp.chunks t).1,
        [.headReq url, .getReq url],
        (finishDownload env a.outputPath fe1 (lowerStr resp.contentType) resp.chunks t).2) := by
  simp only [dlNet, hh, hg, hni]
  simp

/-- An HTML-looking interstitial GET response runs the confirmation
extractor. -/
theorem dlNet_inter (env : Env) (recur : DlArgs → TState → DlRes) (a : DlArgs)
    (url : String) (fileId : Option String) (t : TState) (fe1 : String)
    (resp : GetResponse)
    (hh : headPhase (env.net url).headO env.maxSizeMB (hintExt a.filenameHint) = .ok fe1)
    (hg : (env.net url).getO = .ok resp)
    (hi : (truthy fileId && strContains (lowerStr resp.contentType) "text/html") = true)
    (hl : looksHtml (htmlSplit resp.chunks).1 = true) :
    dlNet env recur a url fileId t =
      ((interstitial recur a (fileId.getD "") resp.analysis t).1,
        Ev.headReq url :: Ev.getReq url ::
          (interstitial recur a (fileId.getD "") resp.analysis t).2.1,
        (interstitial recur a (fileId.getD "") resp.analysis t).2.2) := by
  simp only [dlNet, hh, hg, hi, hl]
  simp

/-- Classification of a generic (non-Drive, non-Loom) well-formed URL is the
identity. -/
theorem classify_generic :
    classify "http://host/video" none false = .ok ("http://host/video", none) := by
  decide

/-- C3: size enforcement. A probe whose declared content-length exceeds the
configured maximum fails with the size-exceeded error before the GET is even
dispatched and with nothing written to disk; a streamed body whose accumulated
total crosses the ceiling mid-stream fails with the size-exceeded error and
the partial output file is deleted, leaving no file on disk. -/
theorem c3_size_enforcement :
    (∀ maxMB cl g pr, maxMB * 1048576 < cl →
      download_video_from_url (constEnv maxMB ⟨.ok ⟨"", some cl⟩, g⟩ pr)
          "http://host/video" "/tmp/out" none none false 0 [] [] =
        (⟨["http://host/video"], []⟩,
          [Ev.mark "http://host/video" 0, Ev.headReq "http://host/video"],
          .error .sizeHead)) ∧
    (∀ maxMB chunks pr, maxMB * 1048576 < sumLens chunks →
      download_video_from_url
          (constEnv maxMB ⟨.ok ⟨"", none⟩, .ok ⟨"video/mp4", chunks, noAnalysis⟩⟩ pr)
          "http://host/video" "/tmp/out" none none false 0 [] [] =
        (⟨["http://host/video"], []⟩,
          [Ev.mark "http://host/video" 0, Ev.headReq "http://host/video",
            Ev.getReq "http://host/video"],
          .error .sizeStream)) := by
  constructor
  · intro maxMB cl g pr h
    rw [download_video_from_url,
      dlGo_succ_run _ MAX_RETRIES _ _ (by decide) (by simp) _ _ classify_generic,
      dlNet_headErr _ _ _ _ _ _ Err.sizeHead
        (by simp only [constEnv, headPhase, hintExt]; rw [if_pos h])]
    rfl
  · intro maxMB chunks pr h
    rw [download_video_from_url,
      dlGo_succ_run _ MAX_RETRIES _ _ (by decide) (by simp) _ _ classify_generic,
      dlNet_finish _ _ _ _ _ _ ".mp4" ⟨"video/mp4", chunks, noAnalysis⟩
        (by simp only [constEnv, headPhase, hintExt]; rfl)
        (by simp only [constEnv]) (by simp [truthy])]
    obtain ⟨w2, hov⟩ :=
      runStreamGo_overflow chunks (maxMB * 1048576) [] none 0 (by omega) (by omega)
    simp only [finishDownload, runStream, constEnv, hov]
    rfl

/-- C3 witness: ceiling 1 MB with declared length 1048577 fails before the
GET; ceiling 0 with a 1-byte body fails mid-stream leaving no file. -/
theorem c3_size_enforcement_witness :
    download_video_from_url (constEnv 1 ⟨.ok ⟨"", some 1048577⟩, .networkE⟩ prFalse)
        "http://host/video" "/tmp/out" none none false 0 [] [] =
      (⟨["http://host/video"], []⟩,
        [Ev.mark "http://host/video" 0, Ev.headReq "http://host/video"],
        .error .sizeHead) ∧
    download_video_from_url
        (constEnv 0 ⟨.ok ⟨"", none⟩, .ok ⟨"video/mp4", [[7]], noAnalysis⟩⟩ prFalse)
        "http://host/video" "/tmp/out" none none false 0 [] [] =
      (⟨["http://host/video"], []⟩,
        [Ev.mark "http://host/video" 0, Ev.headReq "http://host/video",
          Ev.getReq "http://host/video"],
        .error .sizeStream) :=
  ⟨c3_size_enforcement.1 1 1048577 .networkE prFalse (by decide),
    c3_size_enforcement.2 0 [[7]] prFalse (by decide)⟩

/-- C6 counterexample: the claim says a probe failure of any kind (including a
network hiccup) proceeds to the GET; but a transport-level HEAD failure is not
caught by the `except httpx.HTTPStatusError` handler, so the attempt aborts
with the network error and no GET is ever dispatched. -/
theorem c6_probe_counterexample :
    (download_video_from_url (constEnv 100 ⟨.networkE, .networkE⟩ prFalse)
        "http://host/video" "/tmp/out" none none false 0 [] []).2 =
      ([Ev.mark "http://host/video" 0, Ev.headReq "http://host/video"],
        .error .networkErr) ∧
    (download_video_from_url (constEnv 100 ⟨.timeoutE, .networkE⟩ prFalse)
        "http://host/video" "/tmp/out" none none false 0 [] []).2 =
      ([Ev.mark "http://host/video" 0, Ev.headReq "http://host/video"],
        .error .timeoutErr) := by
  constructor <;> decide

/-- C6 amended: only a probe failure raised as an HTTP status error
(`raise_for_status` on the HEAD response) is advisory — then the pipeline
always proceeds to the full GET, whatever the GET outcome; transport-level
probe failures (timeout, network) abort the attempt instead. -/
theorem c6_probe_advisory_amended : ∀ (g : GetOutcome) (maxMB : Nat)
    (pr : List Nat → Bool),
    (download_video_from_url (constEnv maxMB ⟨.statusError, g⟩ pr)
        "http://host/video" "/tmp/out" none none false 0 [] []).2.1 =
      [Ev.mark "http://host/video" 0, Ev.headReq "http://host/video",
        Ev.getReq "http://host/video"] := by
  intro g maxMB pr
  rw [download_video_from_url,
    dlGo_succ_run _ MAX_RETRIES _ _ (by decide) (by simp) _ _ classify_generic]
  cases g with
  | ok resp =>
    by_cases hi : (truthy (none : Option String) &&
        strContains (lowerStr resp.contentType) "text/html") = true
    · simp [truthy] at hi
    · rw [dlNet_finish _ _ _ _ _ _ ".mp4" resp
        (by simp only [constEnv, headPhase, hintExt]; rfl)
        (by simp only [constEnv]) (by simp [truthy])]
  | statusErr c =>
    rw [dlNet_getStatus _ _ _ _ _ _ ".mp4" c
      (by simp only [constEnv, headPhase, hintExt]; rfl) (by simp only [constEnv])]
  | timeoutE =>
    simp only [dlNet, constEnv, headPhase, hintExt]
  | networkE =>
    simp only [dlNet, constEnv, headPhase, hintExt]

/-- Leading EBML bytes validate regardless of path, size oracle or ffprobe. -/
theorem valid_ebml : ∀ (p : String) (rf : Option (List Nat)) (sz : Option Nat)
    (pr2 : Bool), isValidVideoFile p (some ebmlChunk) rf sz pr2 = true := by
  intro p rf sz pr2
  unfold isValidVideoFile effFirstBytes
  dsimp only
  rw [if_neg (by decide)]
  dsimp only
  rw [if_neg (by decide), if_neg (by decide), if_pos (by decide)]

/-- C7 counterexample: with filename hint `v.mp4` (hint extension `.mp4`) and
a GET declaring `video/webm`, the delivered path carries `.webm`, not the
hint's `.mp4` — the hint does not take precedence when its extension is
`.mp4`. -/
theorem c7_extension_counterexample :
    (download_video_from_url
        (constEnv 100 ⟨.ok ⟨"", none⟩, .ok ⟨"video/webm", [ebmlChunk], noAnalysis⟩⟩
          prFalse)
        "http://host/video" "/tmp/out" (some "v.mp4") none false 0 [] []).2.2 =
      .ok ("/tmp/out.webm", 12) ∧
    "/tmp/out.webm" ≠ pathWithExt "/tmp/out" ".mp4" := by
  constructor <;> decide

/-- C7 amended: the hint-first precedence holds except for a hint extension of
`.mp4`: a non-`.mp4` (and non-empty) resolved extension survives the GET phase
untouched and the hint then wins; an extension standing at `.mp4` after the
HEAD phase (from the hint, the HEAD content type, or the default) is
re-resolved against the GET content-type mapping; and the on-disk path is
rewritten to carry the resolved extension exactly when it does not already end
with it (`pathWithExt`). -/
theorem c7_extension_resolution_amended :
    (∀ fe ct, fe ≠ "" → fe ≠ ".mp4" → resolveExtGet fe ct = fe) ∧
    (∀ hnt e ctg out, hintExt (some hnt) = some e → e ≠ ".mp4" → e ≠ "" →
      (download_video_from_url
          (constEnv 100 ⟨.ok ⟨"", none⟩, .ok ⟨ctg, [ebmlChunk], noAnalysis⟩⟩ prFalse)
          "http://host/video" out (some hnt) none false 0 [] []).2.2 =
        .ok (pathWithExt out e, 12)) ∧
    (∀ ctg out,
      (download_video_from_url
          (constEnv 100 ⟨.ok ⟨"", none⟩, .ok ⟨ctg, [ebmlChunk], noAnalysis⟩⟩ prFalse)
          "http://host/video" out none none false 0 [] []).2.2 =
        .ok (pathWithExt out (resolveExtGet ".mp4" (lowerStr ctg)), 12)) := by
  refine ⟨?_, ?_, ?_⟩
  · intro fe ct h1 h2
    simp [resolveExtGet, h1, h2]
  · intro hnt e ctg out hh he hne
    rw [download_video_from_url,
      dlGo_succ_run _ MAX_RETRIES _ _ (by simp [MAX_RETRIES]) (by simp) _ _
        classify_generic,
      dlNet_finish _ _ _ _ _ _ e ⟨ctg, [ebmlChunk], noAnalysis⟩
        (by simp [constEnv, headPhase, hh])
        (by simp only [constEnv]) (by simp [truthy])]
    simp only [finishDownload, constEnv]
    rw [show resolveExtGet e (lowerStr ctg) = e by simp [resolveExtGet, hne, he]]
    rw [show runStream (100 * 1048576) [ebmlChunk] =
      .ok (ebmlChunk, ebmlChunk, 12) from by decide]
    dsimp only
    rw [if_pos (valid_ebml (pathWithExt out e) (some (ebmlChunk.take 16)) (some 12)
      (prFalse ebmlChunk))]
  · intro ctg out
    rw [download_video_from_url,
      dlGo_succ_run _ MAX_RETRIES _ _ (by simp [MAX_RETRIES]) (by simp) _ _
        classify_generic,
      dlNet_finish _ _ _ _ _ _ ".mp4" ⟨ctg, [ebmlChunk], noAnalysis⟩
        (by simp [constEnv, headPhase, hintExt]; decide)
        (by simp only [constEnv]) (by simp [truthy])]
    simp only [finishDownload, constEnv]
    rw [show runStream (100 * 1048576) [ebmlChunk] =
      .ok (ebmlChunk, ebmlChunk, 12) from by decide]
    dsimp only
    rw [if_pos (valid_ebml (pathWithExt out (resolveExtGet ".mp4" (lowerStr ctg)))
      (some (ebmlChunk.take 16)) (some 12) (prFalse ebmlChunk))]

/-- C7 witness: a `.webm` hint wins over a `video/mp4` GET content type. -/
theorem c7_extension_resolution_amended_witness :
    (download_video_from_url
        (constEnv 100 ⟨.ok ⟨"", none⟩, .ok ⟨"video/mp4", [ebmlChunk], noAnalysis⟩⟩
          prFalse)
        "http://host/video" "/tmp/out" (some "v.webm") none false 0 [] []).2.2 =
      .ok (pathWithExt "/tmp/out" ".webm", 12) :=
  c7_extension_resolution_amended.2.1 "v.webm" ".webm" "video/mp4" "/tmp/out"
    (by decide) (by decide) (by decide)

/-- Classification with a threaded resource id (continuation) leaves a
non-Loom URL and the id untouched. -/
theorem classify_fid (url f : String)
    (h1 : strContains (lowerStr url) "loom.com" = false)
    (h2 : strContains (lowerStr url) "loom.share" = false) :
    classify url (some f) true = .ok (url, some f) := by
  simp [classify, h1, h2]

/-- The canonical Drive download URL used in the confirmation scenario. -/
def url5 : String := "https://drive.google.com/uc?export=download&id=FID123"

/-- The hidden-field continuation URL the extractor builds for `url5`'s id
and a confirm token `tok` (no uuid/at fields, default authuser, empty
export). -/
def mkW (tok : String) : String :=
  workingUrl "FID123" "" "0" tok none none

/-- Confirmation-page scenario: `url5` answers with an interstitial carrying
both a hidden `confirm` input (`tok`) and a "Download anyway" link (`duf`);
the hidden-field continuation URL answers 500; the link answers with a valid
MP4 body; everything else is unreachable. -/
def env5 (tok duf : String) : Env :=
  { net := fun u =>
      if u = url5 then
        ⟨.ok ⟨"", none⟩,
          .ok ⟨"text/html", [sampleHtml], ⟨some duf, none, [("confirm", tok)], none⟩⟩⟩
      else if u = mkW tok then ⟨.ok ⟨"", none⟩, .statusErr 500⟩
      else if u = duf then ⟨.ok ⟨"", none⟩, .ok ⟨"video/mp4", [ftypChunk], noAnalysis⟩⟩
      else ⟨.networkE, .networkE⟩,
    maxSizeMB := 100, ffprobe := prFalse }

theorem env5_net_url5 (tok duf : String) :
    (env5 tok duf).net url5 =
      ⟨.ok ⟨"", none⟩,
        .ok ⟨"text/html", [sampleHtml], ⟨some duf, none, [("confirm", tok)], none⟩⟩⟩ := by
  simp [env5]

theorem env5_net_w (tok duf : String) (h : mkW tok ≠ url5) :
    (env5 tok duf).net (mkW tok) = ⟨.ok ⟨"", none⟩, .statusErr 500⟩ := by
  simp [env5, h]

theorem env5_net_duf (tok duf : String) (h1 : duf ≠ url5) (h2 : duf ≠ mkW tok) :
    (env5 tok duf).net duf =
      ⟨.ok ⟨"", none⟩, .ok ⟨"video/mp4", [ftypChunk], noAnalysis⟩⟩ := by
  simp [env5, h1, h2]

theorem classify_url5 : classify url5 none false = .ok (url5, some "FID123") := by
  decide

/-- In the confirmation scenario, the hidden-field continuation attempt (the
first candidate) fails with the classified 500. -/
theorem env5_child_w (tok duf : String)
    (hW : mkW tok ≠ url5)
    (hWl1 : strContains (lowerStr (mkW tok)) "loom.com" = false)
    (hWl2 : strContains (lowerStr (mkW tok)) "loom.share" = false) :
    dlGo (env5 tok duf) MAX_RETRIES
      ⟨mkW tok, "/tmp/out", none, some "FID123", true, 1⟩ ⟨[url5], []⟩ =
      (⟨[url5, mkW tok], []⟩,
        [Ev.mark (mkW tok) 1, Ev.headReq (mkW tok), Ev.getReq (mkW tok)],
        .error (.remoteFail 500)) := by
  rw [show (MAX_RETRIES : Nat) = 2 + 1 from rfl,
    dlGo_succ_run _ 2 _ _ (by simp [MAX_RETRIES]) (by simp [hW]) _ _
      (classify_fid (mkW tok) "FID123" hWl1 hWl2),
    dlNet_getStatus _ _ _ _ _ _ ".mp4" 500
      (by rw [env5_net_w tok duf hW, show (env5 tok duf).maxSizeMB = 100 from rfl]
          dsimp only
          decide)
      (by rw [env5_net_w tok duf hW])]
  rfl

/-- In the confirmation scenario, the "Download anyway" link attempt (the
second candidate) succeeds with the valid MP4 body. -/
theorem env5_child_duf (tok duf : String)
    (h1 : duf ≠ url5) (h2 : duf ≠ mkW tok)
    (hdl1 : strContains (lowerStr duf) "loom.com" = false)
    (hdl2 : strContains (lowerStr duf) "loom.share" = false) :
    dlGo (env5 tok duf) MAX_RETRIES
      ⟨duf, "/tmp/out", none, some "FID123", true, 1⟩ ⟨[url5, mkW tok], []⟩ =
      (⟨[url5, mkW tok, duf], [("/tmp/out.mp4", ftypChunk)]⟩,
        [Ev.mark duf 1, Ev.headReq duf, Ev.getReq duf],
        .ok ("/tmp/out.mp4", 12)) := by
  rw [show (MAX_RETRIES : Nat) = 2 + 1 from rfl,
    dlGo_succ_run _ 2 _ _ (by simp [MAX_RETRIES]) (by simp [h1, h2]) _ _
      (classify_fid duf "FID123" hdl1 hdl2),
    dlNet_finish _ _ _ _ _ _ ".mp4" ⟨"video/mp4", [ftypChunk], noAnalysis⟩
      (by rw [env5_net_duf tok duf h1 h2, show (env5 tok duf).maxSizeMB = 100 from rfl]
          dsimp only
          decide)
      (by rw [env5_net_duf tok duf h1 h2]) (by decide)]
  simp only [finishDownload]
  rw [show (env5 tok duf).maxSizeMB = 100 from rfl,
    show (env5 tok duf).ffprobe = prFalse from rfl,
    show runStream (100 * 1048576) [ftypChunk] = .ok (ftypChunk, ftypChunk, 12) from
      by decide]
  dsimp only
  rw [if_pos (by decide),
    show pathWithExt "/tmp/out" (resolveExtGet ".mp4" (lowerStr "video/mp4")) =
      "/tmp/out.mp4" from by decide]
  rfl

/-- In the confirmation scenario the extractor tries the hidden-field working
URL first, swallows its classified failure, and succeeds on the "Download
anyway" link. -/
theorem env5_interstitial (tok duf : String) (htok : tok ≠ "") (hduf : duf ≠ "")
    (hW : mkW tok ≠ url5) (h1 : duf ≠ url5) (h2 : duf ≠ mkW tok)
    (hWl1 : strContains (lowerStr (mkW tok)) "loom.com" = false)
    (hWl2 : strContains (lowerStr (mkW tok)) "loom.share" = false)
    (hdl1 : strContains (lowerStr duf) "loom.com" = false)
    (hdl2 : strContains (lowerStr duf) "loom.share" = false) :
    interstitial (dlGo (env5 tok duf) MAX_RETRIES)
      ⟨url5, "/tmp/out", none, none, false, 0⟩ "FID123"
      ⟨some duf, none, [("confirm", tok)], none⟩ ⟨[url5], []⟩ =
      (⟨[url5, mkW tok, duf], [("/tmp/out.mp4", ftypChunk)]⟩,
        [Ev.mark (mkW tok) 1, Ev.headReq (mkW tok), Ev.getReq (mkW tok),
          Ev.mark duf 1, Ev.headReq duf, Ev.getReq duf],
        .ok ("/tmp/out.mp4", 12)) := by
  simp only [interstitial, interCands, buildHidden, pyLookup, pyOr, truthy, List.foldl,
    List.find?,
    Option.map, decide_True, htok, hduf, ne_eq, decide_not, Option.getD,
    show (decide ("confirm" = "t")) = false from rfl,
    show (decide ("confirm" = "export")) = false from rfl,
    show (decide ("confirm" = "authuser")) = false from rfl,
    show (decide ("confirm" = "uuid")) = false from rfl,
    show (decide ("confirm" = "at")) = false from rfl,
    decide_False, Bool.not_false, Bool.not_true, if_true, if_false, Nat.zero_add]
  rw [show ([workingUrl "FID123" "" "0" tok none none] ++ [duf] ++
        (if (true && ! (["t", "yes"] : List String).contains tok) = true then
          [confirmUrl tok "FID123"] else [])) =
      mkW tok :: duf ::
        (if (true && ! (["t", "yes"] : List String).contains tok) = true then
          [confirmUrl tok "FID123"] else []) from by simp [mkW]]
  simp only [attemptList]
  rw [if_neg (by simp [hW])]
  rw [env5_child_w tok duf hW hWl1 hWl2]
  dsimp only
  rw [if_neg (by simp [h1, h2])]
  rw [env5_child_duf tok duf h1 h2 hdl1 hdl2]
  dsimp only
  rfl

/-- C5: candidate handling of the confirmation extractor. A candidate already
in the attempted-URL set is skipped without any call; a candidate whose
recursive attempt raises a classified failure is swallowed and the remaining
candidates are tried on the updated state; and in a scenario whose page
yields both a hidden `confirm` input (with a known resource id) and a
"Download anyway" link, the hidden-field-derived
`drive.usercontent.google.com/download` URL is attempted first, its failure
is swallowed, and the link is attempted next. -/
theorem c5_hidden_field_priority :
    (∀ (f : String → TState → DlRes) c cs t, c ∈ t.tried →
      attemptList f (c :: cs) t = attemptList f cs t) ∧
    (∀ (f : String → TState → DlRes) c cs t t2 evs e, c ∉ t.tried →
      f c t = (t2, evs, .error e) →
      attemptList f (c :: cs) t =
        ((attemptList f cs t2).1, evs ++ (attemptList f cs t2).2.1,
          (attemptList f cs t2).2.2)) ∧
    (∀ tok duf, tok ≠ "" → duf ≠ "" → mkW tok ≠ url5 → duf ≠ url5 →
      duf ≠ mkW tok →
      strContains (lowerStr (mkW tok)) "loom.com" = false →
      strContains (lowerStr (mkW tok)) "loom.share" = false →
      strContains (lowerStr duf) "loom.com" = false →
      strContains (lowerStr duf) "loom.share" = false →
      (download_video_from_url (env5 tok duf) url5 "/tmp/out" none none false
          0 [] []).2 =
        ([Ev.mark url5 0, Ev.headReq url5, Ev.getReq url5,
            Ev.mark (mkW tok) 1, Ev.headReq (mkW tok), Ev.getReq (mkW tok),
            Ev.mark duf 1, Ev.headReq duf, Ev.getReq duf],
          .ok ("/tmp/out.mp4", 12))) := by
  refine ⟨?_, ?_, ?_⟩
  · intro f c cs t h
    simp [attemptList, h]
  · intro f c cs t t2 evs e hnot hf
    simp only [attemptList]
    rw [if_neg hnot, hf]
  · intro tok duf htok hduf hW h1 h2 hWl1 hWl2 hdl1 hdl2
    rw [download_video_from_url,
      dlGo_succ_run _ MAX_RETRIES _ _ (by decide) (by simp) _ _ classify_url5,
      dlNet_inter _ _ _ _ _ _ ".mp4"
        ⟨"text/html", [sampleHtml], ⟨some duf, none, [("confirm", tok)], none⟩⟩
        (by rw [env5_net_url5 tok duf, show (env5 tok duf).maxSizeMB = 100 from rfl]
            dsimp only
            decide)
        (by rw [env5_net_url5 tok duf]) (by dsimp only; decide)
        (by dsimp only; decide)]
    dsimp only
    rw [show ([] : List String) ++ [url5] = [url5] from rfl]
    simp only [Option.getD_some]
    rw [env5_interstitial tok duf htok hduf hW h1 h2 hWl1 hWl2 hdl1 hdl2]

/-- C5 witness: the scenario instantiated at `tok = "xyz"` and a concrete
"Download anyway" link. -/
theorem c5_hidden_field_priority_witness :
    (download_video_from_url (env5 "xyz" "https://drive.google.com/dl2") url5
        "/tmp/out" none none false 0 [] []).2 =
      ([Ev.mark url5 0, Ev.headReq url5, Ev.getReq url5,
          Ev.mark (mkW "xyz") 1, Ev.headReq (mkW "xyz"), Ev.getReq (mkW "xyz"),
          Ev.mark "https://drive.google.com/dl2" 1,
          Ev.headReq "https://drive.google.com/dl2",
          Ev.getReq "https://drive.google.com/dl2"],
        .ok ("/tmp/out.mp4", 12)) :=
  c5_hidden_field_priority.2.2 "xyz" "https://drive.google.com/dl2"
    (by decide) (by decide) (by decide) (by decide) (by decide) (by decide)
    (by decide) (by decide) (by decide)

/-- Environment for the attempt-count counterexample: the canonical URL always
answers with a confirmation page carrying a hidden token and a download link,
and every derived candidate fails with a 500. -/
def envManyAttempts : Env :=
  { net := fun u =>
      if u = "https://drive.google.com/uc?export=download&id=AAA" then
        ⟨.ok ⟨"", none⟩,
          .ok ⟨"text/html", [sampleHtml],
            ⟨some "https://drive.google.com/dlA", none, [("confirm", "tokA")], none⟩⟩⟩
      else ⟨.ok ⟨"", none⟩, .statusErr 500⟩,
    maxSizeMB := 100, ffprobe := prFalse }

/-- C1 counterexample: one logical acquisition dispatches 5 HEAD/GET pairs —
the first attempt plus four swallowed sibling candidates, each at retry
counter 1 — so the pipeline does not terminate "within 3 attempts" when
attempts are network dispatches; the 3-ceiling bounds only the depth of each
recursive chain. -/
theorem c1_attempts_counterexample :
    countHead (download_video_from_url envManyAttempts
        "https://drive.google.com/uc?export=download&id=AAA" "/tmp/out" none none
        false 0 [] []).2.1 = 5 ∧
    (download_video_from_url envManyAttempts
        "https://drive.google.com/uc?export=download&id=AAA" "/tmp/out" none none
        false 0 [] []).2.2 = .error .allFailed := by
  constructor <;> decide

/-- Environment for the duplicate-dispatch counterexample: the rewritten
download URL answers with a confirmation page whose extracted download link is
that very same URL. -/
def envEchoLink : Env :=
  { net := fun u =>
      if u = "https://drive.google.com/uc?export=download&id=XYZ" then
        ⟨.ok ⟨"", none⟩,
          .ok ⟨"text/html", [sampleHtml],
            ⟨some "https://drive.google.com/uc?export=download&id=XYZ", none, [],
              none⟩⟩⟩
      else ⟨.ok ⟨"", none⟩, .statusErr 404⟩,
    maxSizeMB := 100, ffprobe := prFalse }

/-- C2 counterexample: `tried_urls` records the pre-classification invocation
URL, but the network dispatch goes to the post-classification URL; when the
confirmation page echoes the first attempt's rewritten URL as its download
link, that exact URL string is dispatched over the network twice in one
logical acquisition. -/
theorem c2_duplicate_dispatch_counterexample :
    countGetTo "https://drive.google.com/uc?export=download&id=XYZ"
      (download_video_from_url envEchoLink
        "https://drive.google.com/file/d/XYZ/view" "/tmp/out" none none false 0
        [] []).2.1 = 2 := by
  decide

/-! ## Trace invariants of the retry controller -/

/-- Budget monotonicity of the balance automaton. -/
theorem balAux_mono : ∀ (es : List Ev) (m h m2 h2 : Nat), m ≤ m2 → h ≤ h2 →
    balAux es m h = true → balAux es m2 h2 = true := by
  intro es
  induction es with
  | nil => intro m h m2 h2 _ _ _; rfl
  | cons e es ih =>
    intro m h m2 h2 hm hh hb
    cases e with
    | mark u rc =>
      simp only [balAux] at hb ⊢
      exact ih (m + 1) h (m2 + 1) h2 (by omega) hh hb
    | headReq u =>
      simp only [balAux, Bool.and_eq_true, decide_eq_true_eq] at hb ⊢
      exact ⟨by omega, ih (m - 1) (h + 1) (m2 - 1) (h2 + 1) (by omega) (by omega) hb.2⟩
    | getReq u =>
      simp only [balAux, Bool.and_eq_true, decide_eq_true_eq] at hb ⊢
      exact ⟨by omega, ih m (h - 1) m2 (h2 - 1) hm (by omega) hb.2⟩

/-- The balance automaton composes over concatenation. -/
theorem balAux_append : ∀ (es1 es2 : List Ev) (m h : Nat),
    balAux es1 m h = true → balAux es2 0 0 = true →
    balAux (es1 ++ es2) m h = true := by
  intro es1
  induction es1 with
  | nil =>
    intro es2 m h _ h2
    exact balAux_mono es2 0 0 m h (by omega) (by omega) h2
  | cons e es ih =>
    intro es2 m h hb h2
    cases e with
    | mark u rc =>
      simp only [balAux, List.cons_append] at hb ⊢
      exact ih es2 (m + 1) h hb h2
    | headReq u =>
      simp only [balAux, List.cons_append, Bool.and_eq_true] at hb ⊢
      exact ⟨hb.1, ih es2 (m - 1) (h + 1) hb.2 h2⟩
    | getReq u =>
      simp only [balAux, List.cons_append, Bool.and_eq_true] at hb ⊢
      exact ⟨hb.1, ih es2 m (h - 1) hb.2 h2⟩

/-- A balanced trace has at most as many HEAD dispatches (plus the budget) as
invocation marks. -/
theorem balAux_counts : ∀ (es : List Ev) (m h : Nat),
    balAux es m h = true → countHead es ≤ m + countMark es := by
  intro es
  induction es with
  | nil => intro m h _; simp [countHead, countMark]
  | cons e es ih =>
    intro m h hb
    cases e with
    | mark u rc =>
      simp only [balAux] at hb
      have := ih (m + 1) h hb
      simp only [countHead, countMark, List.filter, List.length_cons] at this ⊢
      omega
    | headReq u =>
      simp only [balAux, Bool.and_eq_true, decide_eq_true_eq] at hb
      have hm := hb.1
      have := ih (m - 1) (h + 1) hb.2
      simp only [countHead, countMark, List.filter, List.length_cons] at this ⊢
      omega
    | getReq u =>
      simp only [balAux, Bool.and_eq_true, decide_eq_true_eq] at hb
      have := ih m (h - 1) hb.2
      simp only [countHead, countMark, List.filter, List.length_cons] at this ⊢
      omega

theorem markUrls_append (es1 es2 : List Ev) :
    markUrls (es1 ++ es2) = markUrls es1 ++ markUrls es2 := by
  simp [markUrls, List.filterMap_append]

theorem markRcs_append (es1 es2 : List Ev) :
    markRcs (es1 ++ es2) = markRcs es1 ++ markRcs es2 := by
  simp [markRcs, List.filterMap_append]

theorem mem_of_getLast? {α : Type} : ∀ (l : List α) (a : α),
    l.getLast? = some a → a ∈ l := by
  intro l
  induction l with
  | nil => intro a h; cases h
  | cons x xs ih =>
    intro a h
    cases xs with
    | nil => simp [List.getLast?] at h; simp [h]
    | cons y ys =>
      rw [List.getLast?_cons_cons] at h
      exact List.mem_cons_of_mem x (ih a h)

theorem rcChainB_append : ∀ (xs ys : List Nat), rcChainB xs = true →
    rcChainB ys = true →
    (∀ x, xs.getLast? = some x → ∀ y, ys.head? = some y → y ≤ x + 1) →
    rcChainB (xs ++ ys) = true := by
  intro xs
  induction xs with
  | nil => intro ys _ h2 _; simpa using h2
  | cons x xs ih =>
    intro ys h1 h2 hb
    cases xs with
    | nil =>
      cases ys with
      | nil => rfl
      | cons y ys =>
        simp only [List.singleton_append, rcChainB, Bool.and_eq_true,
          decide_eq_true_eq]
        exact ⟨hb x rfl y rfl, h2⟩
    | cons x2 tl =>
      simp only [rcChainB, Bool.and_eq_true, decide_eq_true_eq] at h1
      simp only [List.cons_append, rcChainB, Bool.and_eq_true, decide_eq_true_eq]
      refine ⟨h1.1, ?_⟩
      have := ih ys h1.2 h2 (fun z hz => hb z (by rw [List.getLast?_cons_cons]; exact hz))
      simpa using this

/-- Facts about one trace segment of the acquisition, relative to the entry
state: the attempted-URL set grows exactly by the marked URLs, none of which
was already attempted and none of which repeats; the trace is balanced (each
network dispatch covered by a prior mark); every marked attempt counter lies
in `[n, MAX_RETRIES)`; a non-empty segment starts with a mark at level `n`;
and adjacent marked counters rise by at most one. -/
def SegInv (n : Nat) (t t2 : TState) (evs : List Ev) : Prop :=
  t2.tried = t.tried ++ markUrls evs ∧
  (∀ u ∈ markUrls evs, u ∉ t.tried) ∧
  (markUrls evs).Nodup ∧
  balAux evs 0 0 = true ∧
  (∀ x ∈ markRcs evs, n ≤ x ∧ x < MAX_RETRIES) ∧
  (evs = [] ∨ ∃ u rest, evs = Ev.mark u n :: rest) ∧
  rcChainB (markRcs evs) = true

theorem SegInv_nil (n : Nat) (t : TState) : SegInv n t t [] := by
  refine ⟨by simp [markUrls], by simp [markUrls], by simp [markUrls], rfl,
    by simp [markRcs], Or.inl rfl, rfl⟩

theorem SegInv_append (n : Nat) (t t2 t3 : TState) (evs1 evs2 : List Ev)
    (h1 : SegInv n t t2 evs1) (h2 : SegInv n t2 t3 evs2) :
    SegInv n t t3 (evs1 ++ evs2) := by
  obtain ⟨e1, e2, e3, e4, e5, e6, e7⟩ := h1
  obtain ⟨g1, g2, g3, g4, g5, g6, g7⟩ := h2
  refine ⟨?_, ?_, ?_, ?_, ?_, ?_, ?_⟩
  · rw [markUrls_append, g1, e1, List.append_assoc]
  · intro u hu
    rw [markUrls_append, List.mem_append] at hu
    rcases hu with hu | hu
    · exact e2 u hu
    · intro hmem
      exact g2 u hu (by rw [e1, List.mem_append]; exact Or.inl hmem)
  · rw [markUrls_append]
    refine List.Nodup.append e3 g3 ?_
    intro u hu1 hu2
    exact g2 u hu2 (by rw [e1, List.mem_append]; exact Or.inr hu1)
  · exact balAux_append evs1 evs2 0 0 e4 g4
  · intro x hx
    rw [markRcs_append, List.mem_append] at hx
    rcases hx with hx | hx
    · exact e5 x hx
    · exact g5 x hx
  · rcases e6 with he | ⟨u, rest, he⟩
    · subst he
      simpa using g6
    · subst he
      exact Or.inr ⟨u, rest ++ evs2, by simp⟩
  · rw [markRcs_append]
    refine rcChainB_append _ _ e7 g7 ?_
    intro x hx y hy
    have hxm : x ∈ markRcs evs1 := mem_of_getLast? _ _ hx
    have hxn : n ≤ x := (e5 x hxm).1
    rcases g6 with hg | ⟨u, rest, hg⟩
    · subst hg
      simp [markRcs] at hy
    · subst hg
      have : markRcs (Ev.mark u n :: rest) = n :: markRcs rest := rfl
      rw [this] at hy
      simp at hy
      omega

/-- The candidate loop preserves the segment invariant: skipped candidates add
nothing, failed candidates contribute their child segment, and a success stops
the loop. -/
theorem attemptList_inv (n : Nat) (f : String → TState → DlRes)
    (Hf : ∀ c t0, SegInv n t0 (f c t0).1 (f c t0).2.1) :
    ∀ (cs : List String) (t : TState),
      SegInv n t (attemptList f cs t).1 (attemptList f cs t).2.1 := by
  intro cs
  induction cs with
  | nil => intro t; exact SegInv_nil n t
  | cons c cs ih =>
    intro t
    by_cases hm : c ∈ t.tried
    · simp only [attemptList, if_pos hm]
      exact ih t
    · simp only [attemptList, if_neg hm]
      rcases hfc : f c t with ⟨t2, evs, r⟩
      have hseg : SegInv n t t2 evs := by
        have := Hf c t
        rw [hfc] at this
        exact this
      cases r with
      | ok v => exact hseg
      | error e =>
        dsimp only
        rcases hz : attemptList f cs t2 with ⟨t3, evs2, r2⟩
        have hseg2 : SegInv n t2 t3 evs2 := by
          have := ih t2
          rw [hz] at this
          exact this
        exact SegInv_append n t t2 t3 evs evs2 hseg hseg2

/-- The confirmation extractor preserves the segment invariant one level
deeper: all its recursive attempts run at `retryCount + 1`. -/
theorem interstitial_inv (recur : DlArgs → TState → DlRes) (a : DlArgs)
    (fid : String) (an : PageAnalysis) (t : TState)
    (H : ∀ b t0, SegInv b.retryCount t0 (recur b t0).1 (recur b t0).2.1) :
    SegInv (a.retryCount + 1) t (interstitial recur a fid an t).1
      (interstitial recur a fid an t).2.1 := by
  have Hf : ∀ c t0, SegInv (a.retryCount + 1) t0
      ((fun u => recur { a with url := u, fileId := some fid, isRetry := true, retryCount := a.retryCount + 1 }) c t0).1
      ((fun u => recur { a with url := u, fileId := some fid, isRetry := true, retryCount := a.retryCount + 1 }) c t0).2.1 :=
    fun c t0 => H _ t0
  simp only [interstitial]
  rcases hA : attemptList (fun u => recur { a with url := u, fileId := some fid, isRetry := true, retryCount := a.retryCount + 1 }) (interCands fid an) t with ⟨t2, evs, r⟩
  have hseg : SegInv (a.retryCount + 1) t t2 evs := by
    have := attemptList_inv (a.retryCount + 1) _ Hf (interCands fid an) t
    rw [hA] at this
    exact this
  cases r with
  | some v => exact hseg
  | none =>
    dsimp only
    by_cases hcap : MAX_RETRIES - 1 ≤ a.retryCount
    · simp only [if_pos hcap]
      exact hseg
    · simp only [if_neg hcap]
      by_cases hz : a.retryCount = 0
      · simp only [if_pos hz]
        rcases hB : attemptList (fun u => recur { a with url := u, fileId := some fid, isRetry := true, retryCount := a.retryCount + 1 }) [genericConfirmUrl fid] t2 with ⟨t3, evs2, r2⟩
        have hseg2 : SegInv (a.retryCount + 1) t2 t3 evs2 := by
          have := attemptList_inv (a.retryCount + 1) _ Hf [genericConfirmUrl fid] t2
          rw [hB] at this
          exact this
        cases r2 with
        | some v => exact SegInv_append _ t t2 t3 evs evs2 hseg hseg2
        | none => exact SegInv_append _ t t2 t3 evs evs2 hseg hseg2
      · simp only [if_neg hz]
        exact hseg

/-- The plain download tail never touches the attempted-URL set. -/
theorem finishDownload_tried (env : Env) (outputPath fe1 ct : String)
    (chunks : List (List Nat)) (t : TState) :
    (finishDownload env outputPath fe1 ct chunks t).1.tried = t.tried := by
  unfold finishDownload
  rcases hr : runStream (env.maxSizeMB * 1048576) chunks with w | r
  · rfl
  · dsimp only
    split
    · rfl
    · rfl

/-- The network phase of one invocation: it adds no mark of its own, its trace
is balanced against the one outstanding mark of the invocation, and all marks
it produces come from recursive attempts one level deeper. -/
theorem dlNet_inv (env : Env) (recur : DlArgs → TState → DlRes) (a : DlArgs)
    (url : String) (fileId : Option String) (t : TState)
    (H : ∀ b t0, SegInv b.retryCount t0 (recur b t0).1 (recur b t0).2.1) :
    (dlNet env recur a url fileId t).1.tried =
      t.tried ++ markUrls (dlNet env recur a url fileId t).2.1 ∧
    (∀ u ∈ markUrls (dlNet env recur a url fileId t).2.1, u ∉ t.tried) ∧
    (markUrls (dlNet env recur a url fileId t).2.1).Nodup ∧
    balAux (dlNet env recur a url fileId t).2.1 1 0 = true ∧
    (∀ x ∈ markRcs (dlNet env recur a url fileId t).2.1,
      a.retryCount + 1 ≤ x ∧ x < MAX_RETRIES) ∧
    (markRcs (dlNet env recur a url fileId t).2.1 = [] ∨
      ∃ tl, markRcs (dlNet env recur a url fileId t).2.1 = (a.retryCount + 1) :: tl) ∧
    rcChainB (markRcs (dlNet env recur a url fileId t).2.1) = true := by
  unfold dlNet
  rcases hh : headPhase (env.net url).headO env.maxSizeMB (hintExt a.filenameHint)
    with e | fe1
  · exact ⟨by simp [markUrls], by simp [markUrls], by simp [markUrls], rfl,
      by simp [markRcs], Or.inl (by simp [markRcs]), rfl⟩
  · rcases hg : (env.net url).getO with resp | c | _ | _
    · dsimp only
      by_cases hi : (truthy fileId && strContains (lowerStr resp.contentType)
          "text/html") = true
      · rw [if_pos hi]
        by_cases hl : looksHtml (htmlSplit resp.chunks).1 = true
        · rw [if_pos hl]
          dsimp only [List.cons_append, List.nil_append]
          have hseg := interstitial_inv recur a (fileId.getD "") resp.analysis t H
          obtain ⟨s1, s2, s3, s4, s5, s6, s7⟩ := hseg
          have hmu : markUrls (Ev.headReq url :: Ev.getReq url ::
              (interstitial recur a (fileId.getD "") resp.analysis t).2.1) =
              markUrls (interstitial recur a (fileId.getD "") resp.analysis t).2.1 := rfl
          have hmr : markRcs (Ev.headReq url :: Ev.getReq url ::
              (interstitial recur a (fileId.getD "") resp.analysis t).2.1) =
              markRcs (interstitial recur a (fileId.getD "") resp.analysis t).2.1 := rfl
          refine ⟨by rw [hmu]; exact s1, by rw [hmu]; exact s2, by rw [hmu]; exact s3,
            ?_, by rw [hmr]; exact s5, ?_, by rw [hmr]; exact s7⟩
          · show balAux (Ev.headReq url :: Ev.getReq url :: _) 1 0 = true
            simp only [balAux, decide_eq_true_eq, Bool.and_eq_true]
            exact ⟨by omega, by omega, s4⟩
          · rw [hmr]
            rcases s6 with hnil | ⟨u, rest, hevs⟩
            · exact Or.inl (by rw [hnil]; rfl)
            · exact Or.inr ⟨markRcs rest, by rw [hevs]; rfl⟩
        · rw [if_neg hl]
          exact ⟨by dsimp only; rw [finishDownload_tried]; simp [markUrls],
            by simp [markUrls], by simp [markUrls], rfl, by simp [markRcs],
            Or.inl (by simp [markRcs]), rfl⟩
      · rw [if_neg hi]
        exact ⟨by dsimp only; rw [finishDownload_tried]; simp [markUrls],
          by simp [markUrls], by simp [markUrls], rfl, by simp [markRcs],
          Or.inl (by simp [markRcs]), rfl⟩
    · exact ⟨by simp [markUrls], by simp [markUrls], by simp [markUrls], rfl,
        by simp [markRcs], Or.inl (by simp [markRcs]), rfl⟩
    · exact ⟨by simp [markUrls], by simp [markUrls], by simp [markUrls], rfl,
        by simp [markRcs], Or.inl (by simp [markRcs]), rfl⟩
    · exact ⟨by simp [markUrls], by simp [markUrls], by simp [markUrls], rfl,
        by simp [markRcs], Or.inl (by simp [markRcs]), rfl⟩

/-- One invocation body preserves the segment invariant at its own level, and
when it produces any event the first one is the `tried_urls.add` of its own
URL at its own counter. -/
theorem dlStep_inv (env : Env) (recur : DlArgs → TState → DlRes) (a : DlArgs)
    (t : TState)
    (H : ∀ b t0, SegInv b.retryCount t0 (recur b t0).1 (recur b t0).2.1) :
    SegInv a.retryCount t (dlStep env recur a t).1 (dlStep env recur a t).2.1 ∧
    ((dlStep env recur a t).2.1 = [] ∨
      ∃ rest, (dlStep env recur a t).2.1 = Ev.mark a.url a.retryCount :: rest) := by
  unfold dlStep
  by_cases h1 : MAX_RETRIES ≤ a.retryCount
  · rw [if_pos h1]
    exact ⟨SegInv_nil _ t, Or.inl rfl⟩
  · rw [if_neg h1]
    by_cases h2 : a.url ∈ t.tried
    · rw [if_pos h2]
      exact ⟨SegInv_nil _ t, Or.inl rfl⟩
    · rw [if_neg h2]
      rcases hc : classify a.url a.fileId a.isRetry with e | p
      · refine ⟨⟨?_, ?_, ?_, rfl, ?_, ?_, rfl⟩, ?_⟩
        · simp [markUrls]
        · simp only [markUrls, List.filterMap]
          intro u hu
          simp at hu
          subst hu
          exact h2
        · simp [markUrls]
        · intro x hx
          simp [markRcs] at hx
          subst hx
          omega
        · exact Or.inr ⟨a.url, [], rfl⟩
        · exact Or.inr ⟨[], rfl⟩
      · dsimp only
        obtain ⟨n1, n2, n3, n4, n5, n6, n7⟩ :=
          dlNet_inv env recur a p.1 p.2 { t with tried := t.tried ++ [a.url] } H
        have hmu : ∀ (es : List Ev), markUrls (Ev.mark a.url a.retryCount :: es) =
            a.url :: markUrls es := fun es => rfl
        have hmr : ∀ (es : List Ev), markRcs (Ev.mark a.url a.retryCount :: es) =
            a.retryCount :: markRcs es := fun es => rfl
        refine ⟨⟨?_, ?_, ?_, ?_, ?_, ?_, ?_⟩, ?_⟩
        · rw [hmu, n1]
          simp
        · rw [hmu]
          intro u hu
          rcases List.mem_cons.mp hu with hu | hu
          · subst hu; exact h2
          · intro hmem
            exact n2 u hu (by simp [hmem])
        · rw [hmu]
          refine List.nodup_cons.mpr ⟨?_, n3⟩
          intro hmem
          exact n2 a.url hmem (by simp)
        · show balAux (Ev.mark a.url a.retryCount :: _) 0 0 = true
          simp only [balAux]
          exact n4
        · rw [hmr]
          intro x hx
          rcases List.mem_cons.mp hx with hx | hx
          · subst hx; omega
          · have := n5 x hx
            omega
        · exact Or.inr ⟨a.url, _, rfl⟩
        · rw [hmr]
          rcases n6 with hnil | ⟨tl, htl⟩
          · rw [hnil]; rfl
          · rw [htl]
            simp only [rcChainB, Bool.and_eq_true, decide_eq_true_eq]
            have := n7
            rw [htl] at this
            exact ⟨by omega, this⟩
        · exact Or.inr ⟨_, rfl⟩

/-- The full recursion preserves the segment invariant at the entry level, and
a non-empty trace starts with the invocation's own mark. -/
theorem dlGo_inv (env : Env) : ∀ (fuel : Nat) (a : DlArgs) (t : TState),
    SegInv a.retryCount t (dlGo env fuel a t).1 (dlGo env fuel a t).2.1 ∧
    ((dlGo env fuel a t).2.1 = [] ∨
      ∃ rest, (dlGo env fuel a t).2.1 = Ev.mark a.url a.retryCount :: rest) := by
  intro fuel
  induction fuel with
  | zero => intro a t; exact ⟨SegInv_nil _ t, Or.inl rfl⟩
  | succ fuel ih =>
    intro a t
    exact dlStep_inv env (dlGo env fuel) a t (fun b t0 => (ih b t0).1)

/-- C1 amended: for every environment and every invocation, the attempted-URL
set grows by exactly the marked URLs (so it only grows); the trace is balanced
(each URL is added before its HEAD, and each GET follows its HEAD); every
network dispatch is covered by an invocation mark, so dispatches are bounded
by invocations; every marked attempt counter lies in
`[retryCount, MAX_RETRIES)` — the counter never reaches 3 with a dispatch, so
any single chain of recursive re-invocations performs at most 3 attempts; a
non-empty trace starts with the invocation's own mark; and adjacent marked
counters rise by at most one, i.e. each re-invocation increments the counter
by exactly 1. Termination is unconditional (`dlGo` is total); however the
total number of attempts across swallowed sibling candidates may exceed 3
(see the counterexample). -/
theorem c1_monotonic_accounting_amended : ∀ (env : Env) (fuel : Nat)
    (a : DlArgs) (t : TState),
    (dlGo env fuel a t).1.tried = t.tried ++ markUrls (dlGo env fuel a t).2.1 ∧
    balAux (dlGo env fuel a t).2.1 0 0 = true ∧
    countHead (dlGo env fuel a t).2.1 ≤ countMark (dlGo env fuel a t).2.1 ∧
    (markRcs (dlGo env fuel a t).2.1).all
      (fun x => decide (a.retryCount ≤ x) && decide (x < MAX_RETRIES)) = true ∧
    ((dlGo env fuel a t).2.1 = [] ∨
      ∃ rest, (dlGo env fuel a t).2.1 = Ev.mark a.url a.retryCount :: rest) ∧
    rcChainB (markRcs (dlGo env fuel a t).2.1) = true := by
  intro env fuel a t
  obtain ⟨⟨s1, s2, s3, s4, s5, s6, s7⟩, hfst⟩ := dlGo_inv env fuel a t
  refine ⟨s1, s4, ?_, ?_, hfst, s7⟩
  · have := balAux_counts _ 0 0 s4
    omega
  · rw [List.all_eq_true]
    intro x hx
    have := s5 x hx
    simp [this.1, this.2]

/-- C2 amended: deduplication operates on invocation URLs, not dispatched
URLs: no invocation URL is ever marked (added to `tried_urls`) twice in one
acquisition, and none that was already in the set is processed — an exact
repeat fails terminally with the duplicate-URL error before any network
request. The dispatched (post-classification) URL is however not recorded, so
it can coincide with a later candidate and be contacted twice (see the
counterexample). -/
theorem c2_no_duplicate_invocation_amended :
    (∀ (env : Env) (fuel : Nat) (a : DlArgs) (t : TState),
      (markUrls (dlGo env fuel a t).2.1).Nodup ∧
      ∀ u ∈ markUrls (dlGo env fuel a t).2.1, u ∉ t.tried) ∧
    (∀ (env : Env) (fuel : Nat) (a : DlArgs) (t : TState),
      a.retryCount < MAX_RETRIES → a.url ∈ t.tried →
      dlGo env (fuel + 1) a t = (t, [], .error .dupUrl)) := by
  constructor
  · intro env fuel a t
    obtain ⟨⟨_, s2, s3, _, _, _, _⟩, _⟩ := dlGo_inv env fuel a t
    exact ⟨s3, s2⟩
  · intro env fuel a t h1 h2
    simp only [dlGo, dlStep]
    rw [if_neg (by omega), if_pos h2]

/-- C2 witness: a fresh invocation on a URL already in the attempted set
fails with the duplicate-URL error, touching nothing. -/
theorem c2_no_duplicate_invocation_amended_witness :
    dlGo (constEnv 0 ⟨.networkE, .networkE⟩ prFalse) 1
      ⟨"http://host/video", "/tmp/out", none, none, false, 0⟩
      ⟨["http://host/video"], []⟩ =
      (⟨["http://host/video"], []⟩, [], .error .dupUrl) :=
  c2_no_duplicate_invocation_amended.2 (constEnv 0 ⟨.networkE, .networkE⟩ prFalse)
    0 ⟨"http://host/video", "/tmp/out", none, none, false, 0⟩
    ⟨["http://host/video"], []⟩ (by decide) (by decide)

/-! ## Adequacy of the fuel: the `fuelOut` marker is unreachable -/

/-- The extractor itself only raises its two terminal errors; recursive
failures are swallowed, successes returned. -/
theorem interstitial_result (recur : DlArgs → TState → DlRes) (a : DlArgs)
    (fid : String) (an : PageAnalysis) (t : TState) :
    (∃ v, (interstitial recur a fid an t).2.2 = .ok v) ∨
    (interstitial recur a fid an t).2.2 = .error .exhausted ∨
    (interstitial recur a fid an t).2.2 = .error .allFailed := by
  simp only [interstitial]
  rcases hA : attemptList (fun u => recur { a with url := u, fileId := some fid, isRetry := true, retryCount := a.retryCount + 1 }) (interCands fid an) t with ⟨t2, evs, r⟩
  cases r with
  | some v => exact Or.inl ⟨v, rfl⟩
  | none =>
    dsimp only
    by_cases hcap : MAX_RETRIES - 1 ≤ a.retryCount
    · rw [if_pos hcap]
      exact Or.inr (Or.inl rfl)
    · rw [if_neg hcap]
      by_cases hz : a.retryCount = 0
      · rw [if_pos hz]
        rcases hB : attemptList (fun u => recur { a with url := u, fileId := some fid, isRetry := true, retryCount := a.retryCount + 1 }) [genericConfirmUrl fid] t2 with ⟨t3, evs2, r2⟩
        cases r2 with
        | some v => exact Or.inl ⟨v, rfl⟩
        | none => exact Or.inr (Or.inr rfl)
      · rw [if_neg hz]
        exact Or.inr (Or.inr rfl)

/-- One invocation body never reports the embedding's fuel marker: every error
it can return is one of the source's own `HTTPException`s. -/
theorem dlStep_no_fuelOut (env : Env) (recur : DlArgs → TState → DlRes)
    (a : DlArgs) (t : TState) :
    (dlStep env recur a t).2.2 ≠ .error .fuelOut := by
  unfold dlStep
  by_cases h1 : MAX_RETRIES ≤ a.retryCount
  · rw [if_pos h1]; simp
  rw [if_neg h1]
  by_cases h2 : a.url ∈ t.tried
  · rw [if_pos h2]; simp
  rw [if_neg h2]
  rcases hc : classify a.url a.fileId a.isRetry with e | p
  · have he : e ≠ .fuelOut := by
      unfold classify at hc
      split at hc
      · cases hc; simp
      split at hc
      · rcases hf : findFileD a.url with _ | fid2
        · rw [hf] at hc
          rcases hi : findIdParam a.url with _ | fid3 <;> rw [hi] at hc
          · cases hc; simp
          · cases hc
        · rw [hf] at hc; cases hc
      split at hc
      · split at hc
        · rcases hl : findLoomId a.url with _ | lid <;> rw [hl] at hc <;> cases hc
        · cases hc
      · cases hc
    simpa using he
  · dsimp only
    unfold dlNet
    rcases hh : headPhase (env.net p.1).headO env.maxSizeMB (hintExt a.filenameHint)
      with e | fe1
    · have he : e ≠ .fuelOut := by
        unfold headPhase at hh
        split at hh
        · split at hh
          · split at hh
            · cases hh; simp
            · cases hh
          · cases hh
        · cases hh
        · cases hh; simp
        · cases hh; simp
      simpa using he
    rcases hg : (env.net p.1).getO with resp | c | _ | _
    · dsimp only
      by_cases hi : (truthy p.2 && strContains (lowerStr resp.contentType)
          "text/html") = true
      · rw [if_pos hi]
        by_cases hl : looksHtml (htmlSplit resp.chunks).1 = true
        · rw [if_pos hl]
          dsimp only
          rcases interstitial_result recur a (p.2.getD "") resp.analysis
              { tried := t.tried ++ [a.url], disk := t.disk } with
            ⟨v, hv⟩ | hv | hv <;> rw [hv] <;> simp
        · rw [if_neg hl]
          dsimp only
          unfold finishDownload
          rcases hr : runStream (env.maxSizeMB * 1048576) (htmlSplit resp.chunks).2
            with w | r
          · simp
          · dsimp only
            split <;> simp
      · rw [if_neg hi]
        dsimp only
        unfold finishDownload
        rcases hr : runStream (env.maxSizeMB * 1048576) resp.chunks with w | r
        · simp
        · dsimp only
          split <;> simp
    · simp only [classifyStatus]
      split
      · simp
      split
      · simp
      split <;> simp
    · simp
    · simp

/-- With any successor fuel — in particular the wrapper's
`MAX_RETRIES + 1` — the pipeline never reports the fuel marker: the embedding
is adequate. -/
theorem download_no_fuelOut (env : Env) (url outputPath : String)
    (filenameHint fileId : Option String) (isRetry : Bool) (retryCount : Nat)
    (tried : List String) (disk : List (String × List Nat)) :
    (download_video_from_url env url outputPath filenameHint fileId isRetry
      retryCount tried disk).2.2 ≠ .error .fuelOut := by
  unfold download_video_from_url
  show (dlGo env (MAX_RETRIES + 1) _ _).2.2 ≠ .error .fuelOut
  rw [show (MAX_RETRIES + 1 : Nat) = 3 + 1 from rfl]
  exact dlStep_no_fuelOut env (dlGo env 3) _ _

/-- Whatever the network answers, the network phase dispatches its HEAD to
exactly the URL it was given. -/
theorem dlNet_starts_head (env : Env) (recur : DlArgs → TState → DlRes)
    (a : DlArgs) (url : String) (fileId : Option String) (t : TState) :
    ∃ tl, (dlNet env recur a url fileId t).2.1 = Ev.headReq url :: tl := by
  unfold dlNet
  rcases hh : headPhase (env.net url).headO env.maxSizeMB (hintExt a.filenameHint)
    with e | fe1
  · exact ⟨[], rfl⟩
  rcases hg : (env.net url).getO with resp | c | _ | _
  · dsimp only
    by_cases hi : (truthy fileId && strContains (lowerStr resp.contentType)
        "text/html") = true
    · rw [if_pos hi]
      by_cases hl : looksHtml (htmlSplit resp.chunks).1 = true
      · rw [if_pos hl]
        exact ⟨_, rfl⟩
      · rw [if_neg hl]
        exact ⟨_, rfl⟩
    · rw [if_neg hi]
      exact ⟨_, rfl⟩
  · exact ⟨_, rfl⟩
  · exact ⟨_, rfl⟩
  · exact ⟨_, rfl⟩

/-- C8: classification is idempotent on canonical Drive URLs: a URL that is
already a Drive download URL carrying an `id` query parameter (no `/file/d/`
share segment) is not rewritten when re-classified with the continuation flag
set — the resource id is extracted but the URL is returned unchanged; once a
resource id is threaded through, classification leaves the URL and id alone
entirely; and at pipeline level a continuation invocation on such a URL marks
and dispatches exactly the unaltered URL. -/
theorem c8_idempotent_classification :
    (∀ url fid, strContains (lowerStr url) "drive.google.com" = true →
      findFileD url = none → findIdParam url = some fid →
      classify url none true = .ok (url, some fid)) ∧
    (∀ url f, strContains (lowerStr url) "loom.com" = false →
      strContains (lowerStr url) "loom.share" = false →
      classify url (some f) true = .ok (url, some f)) ∧
    (∀ (env : Env) url fid, strContains (lowerStr url) "drive.google.com" = true →
      findFileD url = none → findIdParam url = some fid →
      ∃ tl, (download_video_from_url env url "/tmp/out" none none true 0 [] []).2.1 =
        Ev.mark url 0 :: Ev.headReq url :: tl) := by
  refine ⟨?_, ?_, ?_⟩
  · intro url fid hD hF hI
    simp [classify, hD, hF, hI]
  · intro url f hL1 hL2
    simp [classify, hL1, hL2]
  · intro env url fid hD hF hI
    rw [download_video_from_url,
      dlGo_succ_run _ MAX_RETRIES _ _ (by simp [MAX_RETRIES]) (by simp) url (some fid)
        (by simp [classify, hD, hF, hI])]
    obtain ⟨tl, htl⟩ := dlNet_starts_head env (dlGo env MAX_RETRIES)
      ⟨url, "/tmp/out", none, none, true, 0⟩ url (some fid)
      ⟨[] ++ [url], []⟩
    exact ⟨tl, by rw [htl]⟩

/-- C8 witness: the canonical Drive download URL for id `ABC` is returned
unchanged by a continuation-flagged classification. -/
theorem c8_idempotent_classification_witness :
    classify "https://drive.google.com/uc?export=download&id=ABC" none true =
      .ok ("https://drive.google.com/uc?export=download&id=ABC", some "ABC") :=
  c8_idempotent_classification.1
    "https://drive.google.com/uc?export=download&id=ABC" "ABC"
    (by decide) (by decide) (by decide)
